import Mathlib

/-!
# AtomVM: native functions (`nifs.c`) and the ESP32 SPI port driver (`spidriver.c`)

A shallow embedding of the NIFs of `src/libAtomVM/nifs.c` and of the SPI port handler of
`src/platforms/esp32/main/spidriver.c`.

* A `Term` is a value tree (immediates, cons cells, tuples, references, binaries).
* A process heap is accounted in words: `heap_ptr` is the bump pointer, `heap_size` the words
  the heap currently holds.  A cons cell takes 2 words, a tuple of arity `n` takes `n + 1`.
* A `Context *` is the process id of a slot of the process table (`ContextPtr`), so that
  writes through a pointer are updates of the `GlobalContext`.
* C code that calls `abort()` yields `Result.abort`; C code that dereferences `NULL`, reads a
  term through the wrong accessor or indexes past an array yields `Result.fault`.
-/

namespace AtomVM

/-! ## Terms -/

/-- An atom name.  The length byte that prefixes it in the C sources is left implicit. -/
abbrev AtomString := String

/-- Tagged values of the VM. -/
inductive Term where
  | int (value : Int)
  | atom (index : Int)
  | pid (local_process_id : Int)
  | nil
  | cons (head : Term) (tail : Term)
  | tuple (elems : List Term)
  | ref (ticks : Nat)
  | binary (bytes : List Nat)
  deriving Repr, Inhabited

mutual
/-- Decision procedure for the equality of two terms. -/
def Term.decEq : (a b : Term) → Decidable (a = b)
  | .int a, .int b =>
    if h : a = b then isTrue (by rw [h]) else isFalse (by intro e; cases e; exact h rfl)
  | .atom a, .atom b =>
    if h : a = b then isTrue (by rw [h]) else isFalse (by intro e; cases e; exact h rfl)
  | .pid a, .pid b =>
    if h : a = b then isTrue (by rw [h]) else isFalse (by intro e; cases e; exact h rfl)
  | .ref a, .ref b =>
    if h : a = b then isTrue (by rw [h]) else isFalse (by intro e; cases e; exact h rfl)
  | .binary a, .binary b =>
    if h : a = b then isTrue (by rw [h]) else isFalse (by intro e; cases e; exact h rfl)
  | .nil, .nil => isTrue rfl
  | .cons h t, .cons h' t' =>
    match Term.decEq h h', Term.decEq t t' with
    | isTrue e1, isTrue e2 => isTrue (by rw [e1, e2])
    | isFalse n, _ => isFalse (by intro e; cases e; exact n rfl)
    | _, isFalse n => isFalse (by intro e; cases e; exact n rfl)
  | .tuple xs, .tuple ys =>
    match Term.decEqList xs ys with
    | isTrue e => isTrue (by rw [e])
    | isFalse n => isFalse (by intro e; cases e; exact n rfl)
  | .int _, .atom _ => isFalse (by intro e; cases e)
  | .int _, .pid _ => isFalse (by intro e; cases e)
  | .int _, .nil => isFalse (by intro e; cases e)
  | .int _, .cons _ _ => isFalse (by intro e; cases e)
  | .int _, .tuple _ => isFalse (by intro e; cases e)
  | .int _, .ref _ => isFalse (by intro e; cases e)
  | .int _, .binary _ => isFalse (by intro e; cases e)
  | .atom _, .int _ => isFalse (by intro e; cases e)
  | .atom _, .pid _ => isFalse (by intro e; cases e)
  | .atom _, .nil => isFalse (by intro e; cases e)
  | .atom _, .cons _ _ => isFalse (by intro e; cases e)
  | .atom _, .tuple _ => isFalse (by intro e; cases e)
  | .atom _, .ref _ => isFalse (by intro e; cases e)
  | .atom _, .binary _ => isFalse (by intro e; cases e)
  | .pid _, .int _ => isFalse (by intro e; cases e)
  | .pid _, .atom _ => isFalse (by intro e; cases e)
  | .pid _, .nil => isFalse (by intro e; cases e)
  | .pid _, .cons _ _ => isFalse (by intro e; cases e)
  | .pid _, .tuple _ => isFalse (by intro e; cases e)
  | .pid _, .ref _ => isFalse (by intro e; cases e)
  | .pid _, .binary _ => isFalse (by intro e; cases e)
  | .nil, .int _ => isFalse (by intro e; cases e)
  | .nil, .atom _ => isFalse (by intro e; cases e)
  | .nil, .pid _ => isFalse (by intro e; cases e)
  | .nil, .cons _ _ => isFalse (by intro e; cases e)
  | .nil, .tuple _ => isFalse (by intro e; cases e)
  | .nil, .ref _ => isFalse (by intro e; cases e)
  | .nil, .binary _ => isFalse (by intro e; cases e)
  | .cons _ _, .int _ => isFalse (by intro e; cases e)
  | .cons _ _, .atom _ => isFalse (by intro e; cases e)
  | .cons _ _, .pid _ => isFalse (by intro e; cases e)
  | .cons _ _, .nil => isFalse (by intro e; cases e)
  | .cons _ _, .tuple _ => isFalse (by intro e; cases e)
  | .cons _ _, .ref _ => isFalse (by intro e; cases e)
  | .cons _ _, .binary _ => isFalse (by intro e; cases e)
  | .tuple _, .int _ => isFalse (by intro e; cases e)
  | .tuple _, .atom _ => isFalse (by intro e; cases e)
  | .tuple _, .pid _ => isFalse (by intro e; cases e)
  | .tuple _, .nil => isFalse (by intro e; cases e)
  | .tuple _, .cons _ _ => isFalse (by intro e; cases e)
  | .tuple _, .ref _ => isFalse (by intro e; cases e)
  | .tuple _, .binary _ => isFalse (by intro e; cases e)
  | .ref _, .int _ => isFalse (by intro e; cases e)
  | .ref _, .atom _ => isFalse (by intro e; cases e)
  | .ref _, .pid _ => isFalse (by intro e; cases e)
  | .ref _, .nil => isFalse (by intro e; cases e)
  | .ref _, .cons _ _ => isFalse (by intro e; cases e)
  | .ref _, .tuple _ => isFalse (by intro e; cases e)
  | .ref _, .binary _ => isFalse (by intro e; cases e)
  | .binary _, .int _ => isFalse (by intro e; cases e)
  | .binary _, .atom _ => isFalse (by intro e; cases e)
  | .binary _, .pid _ => isFalse (by intro e; cases e)
  | .binary _, .nil => isFalse (by intro e; cases e)
  | .binary _, .cons _ _ => isFalse (by intro e; cases e)
  | .binary _, .tuple _ => isFalse (by intro e; cases e)
  | .binary _, .ref _ => isFalse (by intro e; cases e)
/-- Decision procedure for the equality of two lists of terms. -/
def Term.decEqList : (a b : List Term) → Decidable (a = b)
  | [], [] => isTrue rfl
  | x :: xs, y :: ys =>
    match Term.decEq x y, Term.decEqList xs ys with
    | isTrue e1, isTrue e2 => isTrue (by rw [e1, e2])
    | isFalse n, _ => isFalse (by intro e; cases e; exact n rfl)
    | _, isFalse n => isFalse (by intro e; cases e; exact n rfl)
  | [], _ :: _ => isFalse (by intro e; cases e)
  | _ :: _, [] => isFalse (by intro e; cases e)
end

instance : DecidableEq Term := Term.decEq

/-- What a piece of C code does: returns a value, calls `abort()` (the whole VM stops), or
has undefined behaviour (`fault`: NULL dereference, out-of-bounds access, a term read through
the accessor of another type). -/
inductive Result (α : Type) where
  | ok (val : α)
  | abort (msg : String)
  | fault (what : String)
  deriving DecidableEq, Repr

/-- Sequencing of `Result`s: the first `abort` or `fault` ends the computation. -/
def Result.bind {α β : Type} (r : Result α) (f : α → Result β) : Result β :=
  match r with
  | .ok a => f a
  | .abort m => .abort m
  | .fault w => .fault w

instance : Monad Result where
  pure := Result.ok
  bind := Result.bind

/-! ## Term accessors

`term.h` is not under `src/`: the accessors follow the data model of the
specification (§3: immediates, cons cell (head, tail), arity-prefixed tuple). -/

/-- Modelled from the spec: `term_is_atom` of `term.h`; the atom variant of §3. -/
def term_is_atom : Term → Bool
  | .atom _ => true
  | _ => false

/-- Modelled from the spec: `term_is_pid` of `term.h`; the process identifier variant of §3. -/
def term_is_pid : Term → Bool
  | .pid _ => true
  | _ => false

/-- Modelled from the spec: `term_is_nil` of `term.h`; the nil/empty-list immediate of §3. -/
def term_is_nil : Term → Bool
  | .nil => true
  | _ => false

/-- Modelled from the spec: `term_is_nonempty_list` of `term.h`; a boxed cons cell (§3). -/
def term_is_nonempty_list : Term → Bool
  | .cons _ _ => true
  | _ => false

/-- Modelled from the spec: `term_is_list` of `term.h`; nil or a cons cell (§3). -/
def term_is_list (t : Term) : Bool :=
  term_is_nil t || term_is_nonempty_list t

/-- Modelled from the spec: `term_is_tuple` of `term.h`; a boxed tuple (§3). -/
def term_is_tuple : Term → Bool
  | .tuple _ => true
  | _ => false

/-- Modelled from the spec: `term_nil` of `term.h`. -/
def term_nil : Term := .nil

/-- Modelled from the spec: `term_to_atom_index` of `term.h`; defined on atoms only. -/
def term_to_atom_index : Term → Result Int
  | .atom i => .ok i
  | _ => .fault "term_to_atom_index: not an atom"

/-- Modelled from the spec: `term_from_atom_index` of `term.h`. -/
def term_from_atom_index (atom_index : Int) : Term := .atom atom_index

/-- Modelled from the spec: `term_to_local_process_id` of `term.h`; defined on pids only. -/
def term_to_local_process_id : Term → Result Int
  | .pid p => .ok p
  | _ => .fault "term_to_local_process_id: not a pid"

/-- Modelled from the spec: `term_from_local_process_id` of `term.h`. -/
def term_from_local_process_id (local_process_id : Int) : Term := .pid local_process_id

/-- Modelled from the spec: `term_to_int32` of `term.h`; defined on small integers only. -/
def term_to_int32 : Term → Result Int
  | .int v => .ok v
  | _ => .fault "term_to_int32: not an integer"

/-- Modelled from the spec: `term_from_int32` of `term.h`. -/
def term_from_int32 (value : Int) : Term := .int value

/-- Modelled from the spec: `term_from_int11` of `term.h`; an 11 bit value always fits the
small integer immediate. -/
def term_from_int11 (value : Int) : Term := .int value

/-- Modelled from the spec: `term_get_tuple_arity` of `term.h`; the arity prefix of a tuple. -/
def term_get_tuple_arity : Term → Result Nat
  | .tuple elems => .ok elems.length
  | _ => .fault "term_get_tuple_arity: not a tuple"

/-- Modelled from the spec: `term_get_tuple_element` of `term.h`; slot `elem_index`
(0-based) of a tuple.  Reading a term that is not a tuple, or past the arity, is a fault. -/
def term_get_tuple_element (t : Term) (elem_index : Nat) : Result Term :=
  match t with
  | .tuple elems =>
    match elems.get? elem_index with
    | some e => .ok e
    | none => .fault "term_get_tuple_element: index past the arity"
  | _ => .fault "term_get_tuple_element: not a tuple"

/-- Modelled from the spec: `term_put_tuple_element` of `term.h`; writes slot `elem_index`
(0-based) of a tuple.  The tuple value after the write is returned. -/
def term_put_tuple_element (t : Term) (elem_index : Nat) (put_value : Term) : Result Term :=
  match t with
  | .tuple elems =>
    if elem_index < elems.length then .ok (.tuple (elems.set elem_index put_value))
    else .fault "term_put_tuple_element: index past the arity"
  | _ => .fault "term_put_tuple_element: not a tuple"

/-- Modelled from the spec: `term_get_list_head` of `term.h`; the head of a cons cell. -/
def term_get_list_head : Term → Result Term
  | .cons h _ => .ok h
  | _ => .fault "term_get_list_head: not a cons cell"

/-- Modelled from the spec: `term_get_list_tail` of `term.h`; the tail of a cons cell. -/
def term_get_list_tail : Term → Result Term
  | .cons _ t => .ok t
  | _ => .fault "term_get_list_tail: not a cons cell"

/-- Modelled from the spec: `term_list_length` of `term.h`; the number of cons cells that
are chained from the term. -/
def term_list_length : Term → Nat
  | .cons _ t => term_list_length t + 1
  | _ => 0

/-- The Erlang list `[a0, ..., a(n-1)]` as a term: a chain of cons cells ending in nil. -/
def term_of_list : List Term → Term
  | [] => .nil
  | a :: as => .cons a (term_of_list as)

mutual
/-- Modelled from the spec: `memory_estimate_term_memory_usage` of `memory.c`; the heap
words a term occupies: none for an immediate, 2 per cons cell, arity + 1 per tuple, and for
the other boxed terms a header word plus the payload on a 32 bit target. -/
def memory_estimate_term_memory_usage : Term → Nat
  | .cons h t => 2 + memory_estimate_term_memory_usage h + memory_estimate_term_memory_usage t
  | .tuple elems => 1 + elems.length + memory_estimate_elems elems
  | .ref _ => 3
  | .binary bytes => 2 + (bytes.length + 3) / 4
  | _ => 0
/-- Heap words taken by the elements of a tuple. -/
def memory_estimate_elems : List Term → Nat
  | [] => 0
  | e :: es => memory_estimate_term_memory_usage e + memory_estimate_elems es
end

/-- Characters of a list of small integers; `none` when the list is improper or holds
something that is not a character code. -/
def interop_list_to_chars : Term → Option (List Char)
  | .nil => some []
  | .cons (.int c) t =>
    if 0 ≤ c then (interop_list_to_chars t).map (fun cs => Char.ofNat c.toNat :: cs) else none
  | _ => none

/-- Modelled from the spec: `interop_term_to_string` of `interop.c`; the C string of a
character list or of a binary, NULL (`none`) for any other term. -/
def interop_term_to_string : Term → Option String
  | .binary bytes => some (String.mk (bytes.map Char.ofNat))
  | t => (interop_list_to_chars t).map String.mk

/-! ## Processes and the global context

`context.h`, `globalcontext.h`, `scheduler.h`, `mailbox.h`, `memory.h` and `module.h` are
not under `src/`.  The records hold the fields the code under `src/` reads and
writes; the operations follow §3 to §5 of the specification. -/

/-- Modelled from the spec: the values of `ctx->native_handler` (`context.h`); §3: the
optional native handler of a process, here named by the handler function. -/
inductive NativeHandler where
  | process_echo_mailbox
  | process_console_mailbox
  | spidriver_consume_mailbox
  | platform_driver (driver_name : String)
  deriving DecidableEq, Repr

/-- Modelled from the spec: `Module` of `module.h`, with the fields `nif_erlang_spawn_3`
uses: its name, its index, the export table (function, arity, label), the label table and
the index of its final instruction. -/
structure Module where
  name : AtomString
  module_index : Nat
  exported : List (AtomString × Nat × Nat)
  labels : List Nat
  end_instruction_ii : Nat
  deriving DecidableEq, Repr

/-- Modelled from the spec: `Context` of `context.h`; §3 Process: identity, registers `x`,
heap accounting in words, mailbox (oldest message first), execution cursor and native
handler. -/
structure Context where
  process_id : Int
  x : List Term
  heap_ptr : Nat
  heap_size : Nat
  heap_limit : Nat
  mailbox : List Term
  native_handler : Option NativeHandler
  saved_module : Option Nat
  saved_ip : Nat
  cp : Nat × Nat
  deriving DecidableEq, Repr

/-- Build constants of the VM that are not defined under `src/`: the number of `x`
registers of a process, and the size and the growth bound of a fresh heap, in words. -/
structure VMConfig where
  max_reg : Nat
  default_heap_size : Nat
  heap_limit : Nat
  deriving DecidableEq, Repr

/-- Modelled from the spec: `GlobalContext` of `globalcontext.h`; §3 Registry and §4.4
Scheduler: process table, ready and waiting
queues (of process ids), registered names (atom index, process id), atom table (an atom
index is a position in it), loaded modules and the last process id handed out. -/
structure GlobalContext where
  processes : List Context
  ready_processes : List Int
  waiting_processes : List Int
  registered_processes : List (Int × Int)
  atoms : List AtomString
  modules : List Module
  last_process_id : Int
  config : VMConfig
  deriving DecidableEq, Repr

/-- A `Context *`: NULL or the process-table slot of the process with that id. -/
abbrev ContextPtr := Option Int

/-- The process a non-NULL `Context *` points to. -/
def GlobalContext.deref (glb : GlobalContext) (p : Int) : Option Context :=
  glb.processes.find? (fun c => decide (c.process_id = p))

/-- A write through a `Context *`: the slot of `ctx.process_id` now holds `ctx`. -/
def GlobalContext.store (glb : GlobalContext) (ctx : Context) : GlobalContext :=
  { glb with processes :=
      glb.processes.map (fun c => if c.process_id = ctx.process_id then ctx else c) }

/-- Modelled from the spec: `globalcontext_get_process` of `globalcontext.c`; §4.5
`get_process(pid) -> Process | not_found`. -/
def globalcontext_get_process (glb : GlobalContext) (process_id : Int) : ContextPtr :=
  (glb.deref process_id).map (fun c => c.process_id)

/-- Modelled from the spec: `globalcontext_get_registered_process` of `globalcontext.c`;
the process id bound to the name, and 0 (what `nif_erlang_whereis_1` tests for) when the
name has no binding. -/
def globalcontext_get_registered_process (glb : GlobalContext) (atom_index : Int) : Int :=
  match glb.registered_processes.find? (fun r => decide (r.1 = atom_index)) with
  | some r => r.2
  | none => 0

/-- Modelled from the spec: `globalcontext_insert_atom` of `globalcontext.c`; the index of
the atom in the global intern table (§3), which gets a new entry when the atom is new. -/
def globalcontext_insert_atom (glb : GlobalContext) (atom_string : AtomString) :
    Int × GlobalContext :=
  if atom_string ∈ glb.atoms then
    ((glb.atoms.indexOf atom_string : Nat), glb)
  else
    ((glb.atoms.length : Nat), { glb with atoms := glb.atoms ++ [atom_string] })

/-- Modelled from the spec: `valueshashtable_get_value` on `atoms_ids_table`; the
name of the atom with that index, NULL (`none`) when there is none. -/
def atoms_ids_table_get_value (glb : GlobalContext) (atom_index : Int) : Option AtomString :=
  if 0 ≤ atom_index then glb.atoms.get? atom_index.toNat else none

/-- Modelled from the spec: `globalcontext_get_module` of `globalcontext.c`; the loaded
module of that name, NULL (`none`) when it is not loaded. -/
def globalcontext_get_module (glb : GlobalContext) (module_name : AtomString) :
    Option Module :=
  glb.modules.find? (fun m => decide (m.name = module_name))

/-- Modelled from the spec: `module_search_exported_function` of `module.c`; the label of
`func_name/func_arity` in the export table of the module, and label 0 when the module does
not export it. -/
def module_search_exported_function (this_module : Module) (func_name : AtomString)
    (func_arity : Nat) : Nat :=
  match this_module.exported.find? (fun e => decide (e.1 = func_name ∧ e.2.1 = func_arity)) with
  | some e => e.2.2
  | none => 0

/-- Modelled from the spec: `module_address` of `module.h`; a code address is a module
index with an instruction index. -/
def module_address (module_index : Nat) (instruction_index : Nat) : Nat × Nat :=
  (module_index, instruction_index)

/-- Modelled from the spec: `context_new` of `context.c`; §3 and §4.2: a fresh process with a
new process id, an empty mailbox, a fresh heap and cleared registers, entered in the process
table and handed to the scheduler as runnable. -/
def context_new (glb : GlobalContext) : Context × GlobalContext :=
  let ctx : Context :=
    { process_id := glb.last_process_id + 1
      x := List.replicate glb.config.max_reg Term.nil
      heap_ptr := 0
      heap_size := glb.config.default_heap_size
      heap_limit := glb.config.heap_limit
      mailbox := []
      native_handler := none
      saved_module := none
      saved_ip := 0
      cp := (0, 0) }
  (ctx, { glb with
            processes := glb.processes ++ [ctx]
            ready_processes := glb.ready_processes ++ [ctx.process_id]
            last_process_id := glb.last_process_id + 1 })

/-- Modelled from the spec: `scheduler_make_waiting` of `scheduler.c`; §4.4: the process
leaves the ready queue and is blocked on its mailbox. -/
def scheduler_make_waiting (glb : GlobalContext) (process_id : Int) : GlobalContext :=
  { glb with
      ready_processes := glb.ready_processes.filter (fun p => decide (p ≠ process_id))
      waiting_processes :=
        glb.waiting_processes.filter (fun p => decide (p ≠ process_id)) ++ [process_id] }

/-- Modelled from the spec: `scheduler_make_ready` of `scheduler.c`; §4.4: a blocked process
becomes runnable; a process that is already runnable stays where it is. -/
def scheduler_make_ready (glb : GlobalContext) (process_id : Int) : GlobalContext :=
  if process_id ∈ glb.waiting_processes then
    { glb with
        waiting_processes := glb.waiting_processes.filter (fun p => decide (p ≠ process_id))
        ready_processes := glb.ready_processes ++ [process_id] }
  else glb

/-- Modelled from the spec: `memory_copy_term_tree` of `memory.c`; §4.1 and §8 (copy
fidelity): a structurally equal term built in the heap of `ctx`, which takes the words of
the term from it. -/
def memory_copy_term_tree (ctx : Context) (t : Term) : Term × Context :=
  (t, { ctx with heap_ptr := ctx.heap_ptr + memory_estimate_term_memory_usage t })

/-- Modelled from the spec: `mailbox_send` of `mailbox.c`; §4.3: a stale target (NULL) drops
the term; otherwise the term is deep-copied into the heap of the target, the message is
appended to its mailbox and a target that was blocked on its mailbox becomes runnable. -/
def mailbox_send (glb : GlobalContext) (target : ContextPtr) (t : Term) : GlobalContext :=
  match target with
  | none => glb
  | some p =>
    match glb.deref p with
    | none => glb
    | some c =>
      let (copied, c1) := memory_copy_term_tree c t
      scheduler_make_ready (glb.store { c1 with mailbox := c1.mailbox ++ [copied] }) p

/-- Modelled from the spec: `mailbox_dequeue` of `mailbox.c`; §4.3: removes and returns the
oldest message, NULL (`none`) when the mailbox is empty. -/
def mailbox_dequeue (ctx : Context) : Option Term × Context :=
  match ctx.mailbox with
  | [] => (none, ctx)
  | m :: rest => (some m, { ctx with mailbox := rest })

/-- Modelled from the spec: the result codes of `memory_ensure_free` (`memory.h`), of which
`spidriver.c` names `MEMORY_GC_OK`. -/
inductive MemoryGCResult where
  | MEMORY_GC_OK
  | MEMORY_GC_ERROR_FAILED_ALLOCATION
  deriving DecidableEq, Repr

/-- Modelled from the spec: `memory_ensure_free` of `memory.c`; §3 and §4.1: nothing happens
when `size` words are free; otherwise the heap is collected and regrown, which succeeds when
the words in use plus `size` fit the growth bound of the heap, and fails, leaving the heap as
it was, when they do not.  Every allocated word counts as live. -/
def memory_ensure_free (ctx : Context) (size : Nat) : MemoryGCResult × Context :=
  if ctx.heap_ptr + size ≤ ctx.heap_size then (.MEMORY_GC_OK, ctx)
  else if ctx.heap_ptr + size ≤ ctx.heap_limit then
    (.MEMORY_GC_OK, { ctx with heap_size := ctx.heap_ptr + size })
  else (.MEMORY_GC_ERROR_FAILED_ALLOCATION, ctx)

/-- Modelled from the spec: `term_alloc_tuple` of `term.h`; §4.1 `alloc_tuple(n)`: bumps the
heap pointer by the arity prefix and `size` slots, which the caller populates. -/
def term_alloc_tuple (size : Nat) (ctx : Context) : Term × Context :=
  (.tuple (List.replicate size (Term.int 0)), { ctx with heap_ptr := ctx.heap_ptr + (size + 1) })

/-- Modelled from the spec: `term_list_alloc` of `term.h`; §4.1: bumps the heap pointer by
the two words of a cons cell, which the caller populates. -/
def term_list_alloc (ctx : Context) : Context :=
  { ctx with heap_ptr := ctx.heap_ptr + 2 }

/-! ## `nifs.c` -/

/-- The atom `undefined` (`undefined_atom` of `nifs.c`). -/
def undefined_atom : AtomString := "undefined"

/-- The atom `error` (`error_atom` of `nifs.c`). -/
def error_atom : AtomString := "error"

/-- The atom `ok` (`ok_atom` of `nifs.c`). -/
def ok_atom : AtomString := "ok"

/-- The port drivers of the platform: the native handler `platform_open_port` installs for
a driver name, `none` for a name the platform does not know. -/
structure Platform where
  driver_handler : String → Option NativeHandler

/-- Modelled from the spec: `platform_open_port` of the platform's `sys.c`; §4.2: the same
allocation path as spawn, but a native handler is installed; NULL (`none`) for a driver name
the platform does not know. -/
def platform_open_port (plat : Platform) (glb : GlobalContext) (driver_name : String)
    (_opts : Term) : ContextPtr × GlobalContext :=
  match plat.driver_handler driver_name with
  | none => (none, glb)
  | some handler =>
    let (new_ctx, glb1) := context_new glb
    (some new_ctx.process_id, glb1.store { new_ctx with native_handler := some handler })

/-- The function `nif_erlang_open_port_2` of `nifs.c`. -/
def nif_erlang_open_port_2 (plat : Platform) (glb : GlobalContext) (argv : List Term) :
    Result (Term × GlobalContext) :=
  match argv with
  | [port_name, opts] =>
    if !(term_is_tuple port_name && decide (term_get_tuple_arity port_name = .ok 2))
        && !term_is_nonempty_list opts then
      .abort "bad args"
    else do
      let t ← term_get_tuple_element port_name 1
      match interop_term_to_string t with
      | none =>
        let (error_index, glb1) := globalcontext_insert_atom glb error_atom
        if error_index < 0 then .abort "" else .ok (term_from_atom_index error_index, glb1)
      | some driver_name =>
        let (new_ctx, glb1) : ContextPtr × GlobalContext :=
          if driver_name = "echo" then
            let (c, g) := context_new glb
            (some c.process_id, g.store { c with native_handler := some .process_echo_mailbox })
          else if driver_name = "console" then
            let (c, g) := context_new glb
            (some c.process_id, g.store { c with native_handler := some .process_console_mailbox })
          else (none, glb)
        let (new_ctx, glb2) : ContextPtr × GlobalContext :=
          match new_ctx with
          | none => platform_open_port plat glb1 driver_name opts
          | some p => (some p, glb1)
        match new_ctx with
        | none => .fault "scheduler_make_waiting: new_ctx is NULL"
        | some p => .ok (term_from_local_process_id p, scheduler_make_waiting glb2 p)
  | _ => .abort "wrong arity"

/-- The function `nif_erlang_whereis_1` of `nifs.c`. -/
def nif_erlang_whereis_1 (glb : GlobalContext) (argv : List Term) :
    Result (Term × GlobalContext) :=
  match argv with
  | [a0] =>
    if !term_is_atom a0 then .abort "bad match"
    else do
      let atom_index ← term_to_atom_index a0
      let local_process_id := globalcontext_get_registered_process glb atom_index
      if local_process_id ≠ 0 then
        .ok (term_from_local_process_id local_process_id, glb)
      else
        let (undefined_index, glb1) := globalcontext_insert_atom glb undefined_atom
        .ok (term_from_atom_index undefined_index, glb1)
  | _ => .abort "bad match"

/-- The argument loop of `nif_erlang_spawn_3`: each element of the list is copied into the
heap of the new process and stored in the next `x` register.  Reading a list cell of a term
that is neither nil nor a cons cell, or writing past the register file, is a fault. -/
def spawn_copy_args : Term → Context → Nat → Result Context
  | .nil, new_ctx, _ => .ok new_ctx
  | .cons head tail, new_ctx, reg_index =>
    let (copied, c) := memory_copy_term_tree new_ctx head
    if reg_index < c.x.length then
      spawn_copy_args tail { c with x := c.x.set reg_index copied } (reg_index + 1)
    else .fault "x: register index out of range"
  | _, _, _ => .fault "term_get_list_ptr: not a list"

/-- The function `nif_erlang_spawn_3` of `nifs.c`. -/
def nif_erlang_spawn_3 (glb : GlobalContext) (argv : List Term) :
    Result (Term × GlobalContext) :=
  match argv with
  | [a0, a1, a2] =>
    if !term_is_atom a0 || !term_is_atom a1 || !term_is_list a2 then
      .abort "spawn: invalid arguments"
    else do
      let (new_ctx, glb1) := context_new glb
      let mod_atom_index ← term_to_atom_index a0
      let module_string := atoms_ids_table_get_value glb1 mod_atom_index
      let func_atom_index ← term_to_atom_index a1
      let function_string := atoms_ids_table_get_value glb1 func_atom_index
      match module_string with
      | none => .fault "globalcontext_get_module: module name is NULL"
      | some module_string =>
        match globalcontext_get_module glb1 module_string with
        | none =>
          let (undefined_index, glb2) := globalcontext_insert_atom glb1 undefined_atom
          if undefined_index < 0 then .abort ""
          else .ok (term_from_atom_index undefined_index, glb2)
        | some found_module =>
          match function_string with
          | none => .fault "module_search_exported_function: function name is NULL"
          | some function_string =>
            let label := module_search_exported_function found_module function_string
              (term_list_length a2)
            match found_module.labels.get? label with
            | none => .fault "labels: label out of range"
            | some entry => do
              let new_ctx1 : Context :=
                { new_ctx with
                    saved_module := some found_module.module_index
                    saved_ip := entry
                    cp := module_address found_module.module_index
                      found_module.end_instruction_ii }
              let new_ctx2 ← spawn_copy_args a2 new_ctx1 0
              .ok (term_from_local_process_id new_ctx2.process_id, glb1.store new_ctx2)
  | _ => .abort "spawn: wrong args count"

/-- The function `nif_erlang_send_2` of `nifs.c`. -/
def nif_erlang_send_2 (glb : GlobalContext) (argv : List Term) :
    Result (Term × GlobalContext) :=
  match argv with
  | [a0, a1] =>
    if !term_is_pid a0 then .abort "send: invalid arguments"
    else do
      let local_process_id ← term_to_local_process_id a0
      let target := globalcontext_get_process glb local_process_id
      .ok (a1, mailbox_send glb target a1)
  | _ => .abort "send: wrong args count"

/-- The loop of `nif_erlang_concat_2`: one cons cell is allocated for each cell of the first
list and takes its head.  `cells` holds the heads of the cells allocated so far, in order:
the chain from `list_begin` to `prev_term`, whose last tail is not yet written. -/
def concat_loop : Term → List Term → Context → Result (List Term × Context)
  | .nil, cells, ctx => .ok (cells, ctx)
  | .cons head tail, cells, ctx => concat_loop tail (cells ++ [head]) (term_list_alloc ctx)
  | _, _, _ => .fault "term_get_list_head: not a cons cell"

/-- The value of `list_begin` once the tail of the last allocated cell (`prev_term`) is set
to `append_list`; nil when no cell was allocated. -/
def concat_list_begin (cells : List Term) (append_list : Term) : Term :=
  match cells with
  | [] => term_nil
  | c :: cs => (c :: cs).foldr Term.cons append_list

/-- The function `nif_erlang_concat_2` of `nifs.c`. -/
def nif_erlang_concat_2 (ctx : Context) (argv : List Term) : Result (Term × Context) :=
  match argv with
  | [a0, a1] =>
    let prepend_list := a0
    if !term_is_nonempty_list prepend_list then
      if term_is_nil prepend_list then .ok (a1, ctx) else .abort "Argument error"
    else
      let len := term_list_length prepend_list
      let (_, ctx1) := memory_ensure_free ctx (len * 2)
      let append_list := a1
      do
        let (cells, ctx2) ← concat_loop prepend_list [] ctx1
        .ok (concat_list_begin cells append_list, ctx2)
  | _ => .abort "++: wrong args count"

/-- The fields of `struct tm` that `nif_erlang_universaltime_0` reads. -/
structure BrokenDownTime where
  tm_year : Int
  tm_mon : Int
  tm_mday : Int
  tm_hour : Int
  tm_min : Int
  tm_sec : Int
  deriving DecidableEq, Repr

/-- The function `nif_erlang_universaltime_0` of `nifs.c`; `broken_down_time` is what
`sys_time` and `gmtime_r` give. -/
def nif_erlang_universaltime_0 (broken_down_time : BrokenDownTime) (ctx : Context)
    (argv : List Term) : Result (Term × Context) :=
  match argv with
  | [] =>
    let (_, ctx1) := memory_ensure_free ctx (3 + 4 + 4)
    let (date_tuple, ctx2) := term_alloc_tuple 3 ctx1
    let (time_tuple, ctx3) := term_alloc_tuple 3 ctx2
    let (date_time_tuple, ctx4) := term_alloc_tuple 2 ctx3
    do
      let date_tuple ← term_put_tuple_element date_tuple 0
        (term_from_int32 (1900 + broken_down_time.tm_year))
      let date_tuple ← term_put_tuple_element date_tuple 1
        (term_from_int32 (broken_down_time.tm_mon + 1))
      let date_tuple ← term_put_tuple_element date_tuple 2
        (term_from_int32 broken_down_time.tm_mday)
      let time_tuple ← term_put_tuple_element time_tuple 0
        (term_from_int32 broken_down_time.tm_hour)
      let time_tuple ← term_put_tuple_element time_tuple 1
        (term_from_int32 broken_down_time.tm_min)
      let time_tuple ← term_put_tuple_element time_tuple 2
        (term_from_int32 broken_down_time.tm_sec)
      let date_time_tuple ← term_put_tuple_element date_time_tuple 0 date_tuple
      let date_time_tuple ← term_put_tuple_element date_time_tuple 1 time_tuple
      .ok (date_time_tuple, ctx4)
  | _ => .abort "system_time_to_universal_time(): wrong args count"

/-- The copy loop of `nif_erlang_setelement_3`: `for (i = 0; i < tuple_size; i++)`, with
`remaining = tuple_size - i`. -/
def setelement_copy_loop (old_tuple : Term) : Nat → Nat → Term → Result Term
  | 0, _, new_tuple => .ok new_tuple
  | remaining + 1, i, new_tuple => do
    let e ← term_get_tuple_element old_tuple i
    let new_tuple1 ← term_put_tuple_element new_tuple i e
    setelement_copy_loop old_tuple remaining (i + 1) new_tuple1

/-- The function `nif_erlang_setelement_3` of `nifs.c`. -/
def nif_erlang_setelement_3 (ctx : Context) (argv : List Term) : Result (Term × Context) :=
  match argv with
  | [a0, a1, a2] => do
    let replace_index := (← term_to_int32 a0) - 1
    let tuple_size ← term_get_tuple_arity a1
    if replace_index ≥ (tuple_size : Int) || replace_index < 0 then
      .abort "setelement: bad argument"
    else
      let (_, ctx1) := memory_ensure_free ctx (tuple_size + 1)
      let (new_tuple, ctx2) := term_alloc_tuple tuple_size ctx1
      let old_tuple := a1
      let new_tuple1 ← setelement_copy_loop old_tuple tuple_size 0 new_tuple
      let value := a2
      let new_tuple2 ← term_put_tuple_element new_tuple1 replace_index.toNat value
      .ok (new_tuple2, ctx2)
  | _ => .abort "setelement: wrong args count"

/-! ## `spidriver.c` -/

/-- The atoms of `defaultatoms.h` and `platform_defaultatoms.h` that `spidriver.c` uses,
given by their atom indexes. -/
structure PlatformAtoms where
  OK_ATOM_INDEX : Int
  ERROR_ATOM_INDEX : Int
  READ_AT_ATOM_INDEX : Int
  WRITE_AT_ATOM_INDEX : Int
  deriving DecidableEq, Repr

/-- The term `OK_ATOM`. -/
def PlatformAtoms.OK_ATOM (a : PlatformAtoms) : Term := term_from_atom_index a.OK_ATOM_INDEX

/-- The term `ERROR_ATOM`. -/
def PlatformAtoms.ERROR_ATOM (a : PlatformAtoms) : Term :=
  term_from_atom_index a.ERROR_ATOM_INDEX

/-- The term `READ_AT_ATOM`. -/
def PlatformAtoms.READ_AT_ATOM (a : PlatformAtoms) : Term :=
  term_from_atom_index a.READ_AT_ATOM_INDEX

/-- The term `WRITE_AT_ATOM`. -/
def PlatformAtoms.WRITE_AT_ATOM (a : PlatformAtoms) : Term :=
  term_from_atom_index a.WRITE_AT_ATOM_INDEX

/-- The SPI device behind `spi_device_polling_transmit`: the word received for an address
and a transmitted byte. -/
structure SPIDevice where
  polling_transmit : Nat → Nat → Nat

/-- The function `spidriver_transfer_at` of `spidriver.c`; the result is a `uint8_t`. -/
def spidriver_transfer_at (dev : SPIDevice) (address : Nat) (data : Nat) : Nat :=
  dev.polling_transmit address data % 256

/-- The function `spidriver_read_at` of `spidriver.c`. -/
def spidriver_read_at (atoms : PlatformAtoms) (dev : SPIDevice) (ctx : Context) (req : Term) :
    Result (Term × Context) := do
  let address_term ← term_get_tuple_element req 1
  let _len_term ← term_get_tuple_element req 2
  let address := (← term_to_int32 address_term) % 256
  match memory_ensure_free ctx (1 + 2) with
  | (.MEMORY_GC_OK, ctx1) =>
    let (result_tuple, ctx2) := term_alloc_tuple 2 ctx1
    let read_value := spidriver_transfer_at dev address.toNat 0
    let result_tuple ← term_put_tuple_element result_tuple 0 atoms.OK_ATOM
    let result_tuple ← term_put_tuple_element result_tuple 1 (term_from_int11 read_value)
    .ok (result_tuple, ctx2)
  | (_, ctx1) => .ok (atoms.ERROR_ATOM, ctx1)

/-- The function `spidriver_write_at` of `spidriver.c`. -/
def spidriver_write_at (atoms : PlatformAtoms) (dev : SPIDevice) (ctx : Context) (req : Term) :
    Result (Term × Context) := do
  let address_term ← term_get_tuple_element req 1
  let _len_term ← term_get_tuple_element req 2
  let data_term ← term_get_tuple_element req 3
  let address := (← term_to_int32 address_term) % 256
  let data := (← term_to_int32 data_term) % 256
  match memory_ensure_free ctx (1 + 2) with
  | (.MEMORY_GC_OK, ctx1) =>
    let (result_tuple, ctx2) := term_alloc_tuple 2 ctx1
    let read_value := spidriver_transfer_at dev address.toNat data.toNat
    let result_tuple ← term_put_tuple_element result_tuple 0 atoms.OK_ATOM
    let result_tuple ← term_put_tuple_element result_tuple 1 (term_from_int11 read_value)
    .ok (result_tuple, ctx2)
  | (_, ctx1) => .ok (atoms.ERROR_ATOM, ctx1)

/-- The function `spidriver_consume_mailbox` of `spidriver.c`, run on the port process
`ctx`. -/
def spidriver_consume_mailbox (atoms : PlatformAtoms) (dev : SPIDevice) (glb : GlobalContext)
    (ctx : Int) : Result GlobalContext :=
  match glb.deref ctx with
  | none => .fault "ctx is not a process"
  | some c =>
    match mailbox_dequeue c with
    | (none, _) => .fault "message is NULL"
    | (some msg, c1) => do
      let glb1 := glb.store c1
      let pid ← term_get_tuple_element msg 0
      let _ref ← term_get_tuple_element msg 1
      let req ← term_get_tuple_element msg 2
      let cmd ← term_get_tuple_element req 0
      let local_process_id ← term_to_local_process_id pid
      let target := globalcontext_get_process glb1 local_process_id
      let (ret, c2) ←
        if cmd = atoms.READ_AT_ATOM then spidriver_read_at atoms dev c1 req
        else if cmd = atoms.WRITE_AT_ATOM then spidriver_write_at atoms dev c1 req
        else .ok (atoms.ERROR_ATOM, c1)
      .ok (mailbox_send (glb1.store c2) target ret)

/-! ## Example states -/

/-- A small configuration: 4 registers, heaps of 8 words that can grow to 64. -/
def example_config : VMConfig :=
  { max_reg := 4, default_heap_size := 8, heap_limit := 64 }

/-- A process with id 1, an empty mailbox and an empty heap of 8 words. -/
def example_process : Context :=
  { process_id := 1
    x := List.replicate 4 Term.nil
    heap_ptr := 0
    heap_size := 8
    heap_limit := 64
    mailbox := []
    native_handler := none
    saved_module := none
    saved_ip := 0
    cp := (0, 0) }

/-- The module `mod`, which exports `loop/1` at label 3. -/
def example_module : Module :=
  { name := "mod"
    module_index := 0
    exported := [("loop", 1, 3)]
    labels := [0, 10, 20, 30]
    end_instruction_ii := 99 }

/-- A runtime with the single process 1, the module `mod` and the atoms `false`, `true`,
`ok`, `error`, `undefined`, `read_at`, `write_at`, `mod`, `loop` and `main` (indexes 0 to
9). -/
def example_glb : GlobalContext :=
  { processes := [example_process]
    ready_processes := [1]
    waiting_processes := []
    registered_processes := []
    atoms := ["false", "true", "ok", "error", "undefined", "read_at", "write_at", "mod", "loop",
      "main"]
    modules := [example_module]
    last_process_id := 1
    config := example_config }

/-! ## Notions used to state the properties -/

/-- Every process id in the table was handed out by `context_new`. -/
def GlobalContext.pids_bounded (glb : GlobalContext) : Prop :=
  ∀ c ∈ glb.processes, c.process_id ≤ glb.last_process_id

instance (glb : GlobalContext) : Decidable glb.pids_bounded := by
  unfold GlobalContext.pids_bounded
  exact inferInstance

/-- The mailbox of process `p`, empty when there is no such process. -/
def GlobalContext.mailbox_of (glb : GlobalContext) (p : Int) : List Term :=
  match glb.deref p with
  | some c => c.mailbox
  | none => []

/-- Registers after the argument loop of `nif_erlang_spawn_3` has run over `args` from
register `k` on: element `i` of `args` is in `x[k + i]`. -/
def write_regs : List Term → Nat → List Term → List Term
  | x, _, [] => x
  | x, k, a :: as => write_regs (x.set k a) (k + 1) as

/-- The platform atoms at their indexes in the atom table of `example_glb`. -/
def example_atoms : PlatformAtoms :=
  { OK_ATOM_INDEX := 2, ERROR_ATOM_INDEX := 3, READ_AT_ATOM_INDEX := 5, WRITE_AT_ATOM_INDEX := 6 }

/-- An SPI device that answers address `a` and data `d` with the word `a + d + 1000`. -/
def example_spi_device : SPIDevice :=
  { polling_transmit := fun address data => address + data + 1000 }

/-- The request `{<1>, Ref, {read_at, 5, 1}}`. -/
def example_read_request : Term :=
  Term.tuple [Term.pid 1, Term.ref 77,
    Term.tuple [example_atoms.READ_AT_ATOM, Term.int 5, Term.int 1]]

/-- An SPI port process with id 2 whose mailbox holds `example_read_request` and then the
atom `true`. -/
def example_spi_port : Context :=
  { process_id := 2
    x := List.replicate 4 Term.nil
    heap_ptr := 0
    heap_size := 8
    heap_limit := 64
    mailbox := [example_read_request, Term.atom 1]
    native_handler := some .spidriver_consume_mailbox
    saved_module := none
    saved_ip := 0
    cp := (0, 0) }

/-- The runtime `example_glb` with the SPI port 2 added, runnable. -/
def example_spi_glb : GlobalContext :=
  { example_glb with
      processes := [example_process, example_spi_port]
      ready_processes := [1, 2]
      last_process_id := 2 }

/-- A platform whose only driver is `spi`, served by `spidriver_consume_mailbox`. -/
def example_platform : Platform :=
  { driver_handler := fun n => if n = "spi" then some .spidriver_consume_mailbox else none }

/-- The driver name `echo` as a list of character codes. -/
def example_echo_name : Term :=
  term_of_list [Term.int 101, Term.int 99, Term.int 104, Term.int 111]

/-- The runtime `example_glb` after `open_port({false, "echo"}, [])`: the echo port 2 is in
the process table and in the waiting queue. -/
def example_echo_glb : GlobalContext :=
  { example_glb with
      processes :=
        [example_process,
         { example_process with
             process_id := 2
             native_handler := some .process_echo_mailbox }]
      ready_processes := [1]
      waiting_processes := [2]
      last_process_id := 2 }

/-- A process whose heap is full (8 words of 8 in use) and cannot grow. -/
def example_full_process : Context :=
  { example_process with heap_ptr := 8, heap_size := 8, heap_limit := 8 }

/-- A broken-down time: 2019-01-05 01:02:03. -/
def example_time : BrokenDownTime :=
  { tm_year := 119, tm_mon := 0, tm_mday := 5, tm_hour := 1, tm_min := 2, tm_sec := 3 }

/-! ## The result monad -/

@[simp] theorem Result.ok_bind {α β : Type} (a : α) (f : α → Result β) :
    (Result.ok a >>= f) = f a := rfl

@[simp] theorem Result.abort_bind {α β : Type} (m : String) (f : α → Result β) :
    (Result.abort m >>= f) = Result.abort m := rfl

@[simp] theorem Result.fault_bind {α β : Type} (w : String) (f : α → Result β) :
    (Result.fault w >>= f) = Result.fault w := rfl

@[simp] theorem Result.pure_eq_ok {α : Type} (a : α) : (pure a : Result α) = Result.ok a := rfl

/-! ## Registry lemmas -/

theorem deref_process_id {glb : GlobalContext} {p : Int} {c : Context}
    (h : glb.deref p = some c) : c.process_id = p := by
  unfold GlobalContext.deref at h
  have := List.find?_some h
  simpa using this

theorem deref_mem {glb : GlobalContext} {p : Int} {c : Context}
    (h : glb.deref p = some c) : c ∈ glb.processes := by
  unfold GlobalContext.deref at h
  exact List.mem_of_find?_eq_some h

theorem find_map_store (l : List Context) (ctx : Context) (p : Int) :
    (l.map (fun c => if c.process_id = ctx.process_id then ctx else c)).find?
        (fun c => decide (c.process_id = p)) =
      if p = ctx.process_id then
        (l.find? (fun c => decide (c.process_id = p))).map (fun _ => ctx)
      else l.find? (fun c => decide (c.process_id = p)) := by
  induction l with
  | nil => simp
  | cons a l ih =>
    rw [List.map_cons, List.find?_cons, List.find?_cons, ih]
    by_cases hp : p = ctx.process_id
    · subst hp
      by_cases ha : a.process_id = ctx.process_id
      · simp [ha]
      · simp [ha]
    · by_cases ha : a.process_id = ctx.process_id
      · have hne : ¬ ctx.process_id = p := fun h => hp h.symm
        have hne2 : ¬ a.process_id = p := fun h => hp (h.symm.trans ha)
        simp [ha, hp, hne, hne2]
      · by_cases hap : a.process_id = p
        · simp [ha, hp, hap]
        · simp [ha, hp, hap]

theorem deref_store (glb : GlobalContext) (ctx : Context) (p : Int) :
    (glb.store ctx).deref p =
      if p = ctx.process_id then (glb.deref p).map (fun _ => ctx) else glb.deref p := by
  unfold GlobalContext.store GlobalContext.deref
  exact find_map_store glb.processes ctx p

theorem deref_scheduler_make_ready (glb : GlobalContext) (q p : Int) :
    (scheduler_make_ready glb q).deref p = glb.deref p := by
  unfold scheduler_make_ready GlobalContext.deref
  split <;> rfl

theorem deref_scheduler_make_waiting (glb : GlobalContext) (q p : Int) :
    (scheduler_make_waiting glb q).deref p = glb.deref p := rfl

theorem get_process_eq_none_iff (glb : GlobalContext) (p : Int) :
    globalcontext_get_process glb p = none ↔ glb.deref p = none := by
  unfold globalcontext_get_process
  cases glb.deref p <;> simp

theorem get_process_eq_some {glb : GlobalContext} {p : Int} {c : Context}
    (h : glb.deref p = some c) : globalcontext_get_process glb p = some p := by
  unfold globalcontext_get_process
  rw [h]
  simp [deref_process_id h]

/-- A process id above `last_process_id` names no process of a well-formed table. -/
theorem deref_fresh {glb : GlobalContext} (h : glb.pids_bounded) :
    glb.deref (glb.last_process_id + 1) = none := by
  unfold GlobalContext.deref
  rw [List.find?_eq_none]
  intro c hc
  have := h c hc
  simp only [decide_eq_true_eq]
  omega

/-- The process table after `context_new`: the new process is found under the new id when
the table is well formed, every other lookup is as before. -/
theorem deref_context_new (glb : GlobalContext) (p : Int) :
    (context_new glb).2.deref p =
      match glb.deref p with
      | some c => some c
      | none => if p = glb.last_process_id + 1 then some (context_new glb).1 else none := by
  unfold GlobalContext.deref context_new
  simp only [List.find?_append]
  cases h : List.find? (fun c => decide (c.process_id = p)) glb.processes with
  | some c => simp
  | none =>
    by_cases hp : p = glb.last_process_id + 1
    · simp [List.find?, hp]
    · have : ¬ glb.last_process_id + 1 = p := fun h => hp h.symm
      simp [List.find?, hp, this]

/-! ## The bound on the process ids is an invariant -/

theorem pids_bounded_context_new {glb : GlobalContext} (h : glb.pids_bounded) :
    (context_new glb).2.pids_bounded := by
  intro c hc
  simp only [context_new, List.mem_append, List.mem_singleton] at hc ⊢
  rcases hc with hc | hc
  · have := h c hc
    omega
  · subst hc
    exact Int.le_refl _

theorem pids_bounded_store {glb : GlobalContext} {ctx : Context} (h : glb.pids_bounded)
    (hctx : ctx.process_id ≤ glb.last_process_id) : (glb.store ctx).pids_bounded := by
  intro c hc
  simp only [GlobalContext.store, List.mem_map] at hc
  obtain ⟨a, ha, rfl⟩ := hc
  show _ ≤ glb.last_process_id
  split
  · exact hctx
  · exact h a ha

theorem pids_bounded_insert_atom {glb : GlobalContext} (s : AtomString)
    (h : glb.pids_bounded) : (globalcontext_insert_atom glb s).2.pids_bounded := by
  unfold globalcontext_insert_atom
  split
  · exact h
  · exact h

theorem pids_bounded_new_port {glb : GlobalContext} (handler : NativeHandler)
    (h : glb.pids_bounded) :
    (scheduler_make_waiting
      ((context_new glb).2.store { (context_new glb).1 with native_handler := some handler })
      (glb.last_process_id + 1)).pids_bounded :=
  pids_bounded_store (pids_bounded_context_new h) (Int.le_refl _)

/-- The bound on the process ids is kept by `nif_erlang_open_port_2`. -/
theorem open_port_keeps_pids_bounded (plat : Platform) (glb : GlobalContext)
    (argv : List Term) (t : Term) (glb' : GlobalContext)
    (hwf : glb.pids_bounded)
    (hok : nif_erlang_open_port_2 plat glb argv = .ok (t, glb')) : glb'.pids_bounded := by
  unfold nif_erlang_open_port_2 at hok
  split at hok
  · rename_i port_name opts
    split at hok
    · cases hok
    · cases ht : term_get_tuple_element port_name 1 with
      | abort m => rw [ht] at hok; cases hok
      | fault w => rw [ht] at hok; cases hok
      | ok t =>
        rw [ht] at hok
        simp only [Result.ok_bind] at hok
        cases hs : interop_term_to_string t with
        | none =>
          rw [hs] at hok
          simp only at hok
          split at hok
          · cases hok
          · cases hok
            exact pids_bounded_insert_atom _ hwf
        | some driver_name =>
          rw [hs] at hok
          simp only at hok
          by_cases he : driver_name = "echo"
          · simp only [he, if_true, term_from_local_process_id] at hok
            cases hok
            exact pids_bounded_new_port _ hwf
          · by_cases hc : driver_name = "console"
            · simp only [hc, if_true, term_from_local_process_id] at hok
              simp at hok
              obtain ⟨_, h2⟩ := hok
              subst h2
              exact pids_bounded_new_port _ hwf
            · simp only [he, hc, if_false, platform_open_port] at hok
              cases hd : plat.driver_handler driver_name with
              | none => rw [hd] at hok; simp at hok
              | some handler =>
                rw [hd] at hok
                simp [term_from_local_process_id] at hok
                obtain ⟨_, h2⟩ := hok
                subst h2
                exact pids_bounded_new_port _ hwf
  · cases hok

/-! ## Mailbox lemmas -/

theorem mailbox_of_store (glb : GlobalContext) (ctx : Context) (p : Int) :
    (glb.store ctx).mailbox_of p =
      if p = ctx.process_id ∧ glb.deref p ≠ none then ctx.mailbox else glb.mailbox_of p := by
  unfold GlobalContext.mailbox_of
  rw [deref_store]
  by_cases hp : p = ctx.process_id
  · subst hp
    cases h : glb.deref ctx.process_id <;> simp [h]
  · simp [hp]

theorem deref_store_ne_none (glb : GlobalContext) (ctx : Context) (p : Int) :
    (glb.store ctx).deref p ≠ none ↔ glb.deref p ≠ none := by
  rw [deref_store]
  by_cases hp : p = ctx.process_id
  · subst hp
    cases h : glb.deref ctx.process_id <;> simp [h]
  · simp [hp]

theorem mailbox_of_mailbox_send (glb : GlobalContext) (q : Int) (t : Term) (p : Int)
    (hq : glb.deref q ≠ none) :
    (mailbox_send glb (some q) t).mailbox_of p =
      glb.mailbox_of p ++ (if p = q then [t] else []) := by
  cases h : glb.deref q with
  | none => exact absurd h hq
  | some cq =>
    have hid := deref_process_id h
    simp only [mailbox_send, h, memory_copy_term_tree]
    unfold GlobalContext.mailbox_of
    rw [deref_scheduler_make_ready, deref_store]
    by_cases hp : p = q
    · subst hp
      simp [hid, h]
    · have : ¬ p = cq.process_id := by rw [hid]; exact hp
      simp [hp, this]

/-! ## C1: send to a stale pid -/

/-- A process id that no entry of the process table carries resolves to NULL. -/
theorem get_process_of_stale {glb : GlobalContext} {p : Int}
    (hstale : ∀ c ∈ glb.processes, c.process_id ≠ p) :
    globalcontext_get_process glb p = none := by
  rw [get_process_eq_none_iff]
  unfold GlobalContext.deref
  rw [List.find?_eq_none]
  intro c hc
  simpa using hstale c hc

/-- Sending to a live process appends the message to its mailbox and to no other mailbox:
the model of `mailbox_send` does deliver. -/
theorem send_to_live_pid_delivers (glb : GlobalContext) (p : Int) (message : Term)
    (hlive : glb.deref p ≠ none) :
    ∃ glb', nif_erlang_send_2 glb [Term.pid p, message] = Result.ok (message, glb') ∧
      ∀ q, glb'.mailbox_of q = glb.mailbox_of q ++ (if q = p then [message] else []) := by
  have htarget : globalcontext_get_process glb p = some p := by
    cases h : glb.deref p with
    | none => exact absurd h hlive
    | some c => exact get_process_eq_some h
  refine ⟨mailbox_send glb (some p) message, ?_, fun q =>
    mailbox_of_mailbox_send glb p message q hlive⟩
  simp [nif_erlang_send_2, term_is_pid, term_to_local_process_id, htarget]

/-- C1: when the process id of the target pid resolves to no process (no entry of the
process table carries it, so `globalcontext_get_process` gives NULL), `nif_erlang_send_2`
returns normally (it returns the message) and the whole global context (every mailbox,
every heap, the registry, the scheduler queues) is exactly as before: the message is
discarded. -/
theorem send_to_stale_pid_is_noop (glb : GlobalContext) (p : Int) (message : Term)
    (hstale : ∀ c ∈ glb.processes, c.process_id ≠ p) :
    globalcontext_get_process glb p = none ∧
      nif_erlang_send_2 glb [Term.pid p, message] = Result.ok (message, glb) := by
  have hnone := get_process_of_stale hstale
  refine ⟨hnone, ?_⟩
  simp only [nif_erlang_send_2, term_is_pid, term_to_local_process_id, Bool.not_true,
    Bool.false_eq_true, if_false, Result.ok_bind, hnone]
  rfl

/-- C1 at a concrete state: process 7 does not exist in `example_glb`. -/
theorem send_to_stale_pid_is_noop_witness :
    globalcontext_get_process example_glb 7 = none ∧
      nif_erlang_send_2 example_glb [Term.pid 7, Term.tuple [Term.atom 0, Term.int 3]] =
        Result.ok (Term.tuple [Term.atom 0, Term.int 3], example_glb) :=
  send_to_stale_pid_is_noop example_glb 7 _ (by decide)

/-! ## C2: spawn copies the arguments into the registers of the new process -/

theorem write_regs_length (args : List Term) : ∀ (x : List Term) (k : Nat),
    (write_regs x k args).length = x.length := by
  induction args with
  | nil => intro x k; rfl
  | cons a as ih => intro x k; simp [write_regs, ih]

theorem write_regs_get_lt (args : List Term) : ∀ (x : List Term) (k i : Nat), i < k →
    (write_regs x k args).get? i = x.get? i := by
  induction args with
  | nil => intro x k i _; rfl
  | cons a as ih =>
    intro x k i hi
    simp only [write_regs]
    rw [ih (x.set k a) (k + 1) i (by omega)]
    simp [List.getElem?_set, show ¬ k = i by omega]

theorem write_regs_get (args : List Term) : ∀ (x : List Term) (k i : Nat),
    k + args.length ≤ x.length → i < args.length →
    (write_regs x k args).get? (k + i) = args.get? i := by
  induction args with
  | nil => intro x k i _ hi; simp at hi
  | cons a as ih =>
    intro x k i hlen hi
    simp only [write_regs]
    cases i with
    | zero =>
      show (write_regs (x.set k a) (k + 1) as).get? k = _
      rw [write_regs_get_lt as (x.set k a) (k + 1) k (by omega)]
      simp only [List.length_cons] at hlen
      simp [List.getElem?_set, show k < x.length by omega]
    | succ j =>
      have := ih (x.set k a) (k + 1) j (by simp only [List.length_cons] at hlen; simp; omega)
        (by simpa using hi)
      rw [show k + (j + 1) = k + 1 + j by omega, this]
      simp

theorem spawn_copy_args_eq (args : List Term) : ∀ (c : Context) (k : Nat),
    k + args.length ≤ c.x.length →
    spawn_copy_args (term_of_list args) c k =
      .ok { c with
              x := write_regs c.x k args
              heap_ptr := c.heap_ptr + (args.map memory_estimate_term_memory_usage).sum } := by
  induction args with
  | nil => intro c k _; simp [term_of_list, spawn_copy_args, write_regs]
  | cons a as ih =>
    intro c k hlen
    simp only [List.length_cons] at hlen
    simp only [term_of_list, spawn_copy_args, memory_copy_term_tree]
    rw [if_pos (by omega)]
    rw [ih _ _ (by simp; omega)]
    simp [write_regs, Nat.add_assoc]

theorem spawn_copy_args_spec (args : List Term) (c : Context) (k : Nat)
    (h : k + args.length ≤ c.x.length) :
    ∃ c', spawn_copy_args (term_of_list args) c k = .ok c' ∧ c'.process_id = c.process_id ∧
      c'.x = write_regs c.x k args ∧
      c'.heap_ptr = c.heap_ptr + (args.map memory_estimate_term_memory_usage).sum :=
  ⟨_, spawn_copy_args_eq args c k h, rfl, rfl, rfl⟩

theorem term_is_list_term_of_list (args : List Term) : term_is_list (term_of_list args) = true := by
  cases args <;> simp [term_of_list, term_is_list, term_is_nil, term_is_nonempty_list]

theorem term_list_length_term_of_list (args : List Term) :
    term_list_length (term_of_list args) = args.length := by
  induction args with
  | nil => rfl
  | cons a as ih => simp [term_of_list, term_list_length, ih]

theorem exported_label_in_range {m : Module} {fname : AtomString} {n : Nat}
    (hexp : ∃ label, (fname, n, label) ∈ m.exported)
    (hlabels : ∀ e ∈ m.exported, e.2.2 < m.labels.length) :
    ∃ entry, m.labels.get? (module_search_exported_function m fname n) = some entry := by
  obtain ⟨label, hmem⟩ := hexp
  unfold module_search_exported_function
  cases hfind : m.exported.find? (fun e => decide (e.1 = fname ∧ e.2.1 = n)) with
  | none =>
    rw [List.find?_eq_none] at hfind
    have := hfind _ hmem
    simp at this
  | some e =>
    have hlt := hlabels e (List.mem_of_find?_eq_some hfind)
    exact ⟨m.labels.get ⟨e.2.2, hlt⟩, by simp [List.get?_eq_get hlt]⟩

/-- C2: for a loaded module `m` that exports `fname/n` (every exported label being in the
label table) and a proper argument list `[a0, ..., a(n-1)]` with `n` at most the size of the
register file, `nif_erlang_spawn_3` returns the pid of a process that did not exist before;
register `x[i]` of that process holds `a_i` (the structurally equal copy that
`memory_copy_term_tree` made) for every `i < n`, in list order, and the heap of the new
process holds the words of these copies. -/
theorem spawn_copies_arguments_into_registers (glb : GlobalContext) (mi fi : Int)
    (mname fname : AtomString) (m : Module) (args : List Term)
    (hm : atoms_ids_table_get_value glb mi = some mname)
    (hf : atoms_ids_table_get_value glb fi = some fname)
    (hloaded : globalcontext_get_module glb mname = some m)
    (hexp : ∃ label, (fname, args.length, label) ∈ m.exported)
    (hlabels : ∀ e ∈ m.exported, e.2.2 < m.labels.length)
    (hregs : args.length ≤ glb.config.max_reg)
    (hwf : glb.pids_bounded) :
    ∃ glb' c,
      nif_erlang_spawn_3 glb [Term.atom mi, Term.atom fi, term_of_list args] =
        .ok (Term.pid (glb.last_process_id + 1), glb') ∧
      globalcontext_get_process glb (glb.last_process_id + 1) = none ∧
      glb'.deref (glb.last_process_id + 1) = some c ∧
      (∀ i, i < args.length → c.x.get? i = args.get? i) ∧
      c.heap_ptr = (args.map memory_estimate_term_memory_usage).sum := by
  obtain ⟨entry, hentry⟩ := exported_label_in_range hexp hlabels
  have hm1 : atoms_ids_table_get_value (context_new glb).2 mi = some mname := hm
  have hf1 : atoms_ids_table_get_value (context_new glb).2 fi = some fname := hf
  have hl1 : globalcontext_get_module (context_new glb).2 mname = some m := hloaded
  have hfresh := deref_fresh hwf
  have hnew : (context_new glb).2.deref (glb.last_process_id + 1) = some (context_new glb).1 := by
    rw [deref_context_new, hfresh]; simp
  have hx : (context_new glb).1.x.length = glb.config.max_reg := by simp [context_new]
  have hpid : (context_new glb).1.process_id = glb.last_process_id + 1 := rfl
  obtain ⟨c2, hcopy, hpid2, hx2, hheap2⟩ := spawn_copy_args_spec args
    { (context_new glb).1 with
        saved_module := some m.module_index
        saved_ip := entry
        cp := module_address m.module_index m.end_instruction_ii } 0
    (by simp only [Nat.zero_add, hx]; exact hregs)
  dsimp only at hcopy hpid2 hx2 hheap2
  refine ⟨(context_new glb).2.store c2, c2, ?_, (get_process_eq_none_iff _ _).2 hfresh, ?_, ?_, ?_⟩
  · simp only [nif_erlang_spawn_3, term_is_atom, term_is_list_term_of_list, term_to_atom_index,
      term_list_length_term_of_list]
    simp only [Bool.not_true, Bool.or_false, Bool.false_eq_true, if_false, Result.ok_bind, hm1,
      hf1, hl1, hentry, hcopy, term_from_local_process_id, hpid2]
    rfl
  · rw [deref_store, hpid2, hpid, if_pos rfl, hnew]
    rfl
  · intro i hi
    rw [hx2]
    have := write_regs_get args (context_new glb).1.x 0 i
      (by simp only [Nat.zero_add, hx]; exact hregs) hi
    simpa using this
  · rw [hheap2]
    simp [context_new]

/-- C2 at a concrete state: `spawn(mod, loop, [<1>])` in `example_glb`. -/
theorem spawn_copies_arguments_into_registers_witness :
    ∃ glb' c,
      nif_erlang_spawn_3 example_glb [Term.atom 7, Term.atom 8, term_of_list [Term.pid 1]] =
        .ok (Term.pid (example_glb.last_process_id + 1), glb') ∧
      globalcontext_get_process example_glb (example_glb.last_process_id + 1) = none ∧
      glb'.deref (example_glb.last_process_id + 1) = some c ∧
      (∀ i, i < [Term.pid 1].length → c.x.get? i = [Term.pid 1].get? i) ∧
      c.heap_ptr = ([Term.pid 1].map memory_estimate_term_memory_usage).sum :=
  spawn_copies_arguments_into_registers example_glb 7 8 "mod" "loop" example_module
    [Term.pid 1] (by decide) (by decide) (by decide) ⟨3, by decide⟩ (by decide) (by decide)
    (by decide)

/-! ## C3: spawn of a function the module does not export -/

/-- C3 (the code departs from the claim): in `example_glb` the module `mod` is loaded and
exports only `loop/1`.  `spawn(mod, main, [<1>])` names a function that `mod` does not
export, yet `nif_erlang_spawn_3` returns a pid, not the atom `undefined`: the new process 2
exists, is in the ready queue, holds the argument in `x[0]`, and its entry point `saved_ip`
is the address of label 0, the label `module_search_exported_function` gave for the missing
function. -/
theorem spawn_unexported_function_returns_pid :
    globalcontext_get_module example_glb "mod" = some example_module ∧
      (∀ e ∈ example_module.exported, ¬ (e.1 = "main" ∧ e.2.1 = 1)) ∧
      module_search_exported_function example_module "main" 1 = 0 ∧
      ∃ glb' c,
        nif_erlang_spawn_3 example_glb [Term.atom 7, Term.atom 9, term_of_list [Term.pid 1]] =
          .ok (Term.pid 2, glb') ∧
        glb'.deref 2 = some c ∧ c.saved_ip = 0 ∧ c.saved_module = some 0 ∧
        c.x.get? 0 = some (Term.pid 1) ∧ 2 ∈ glb'.ready_processes :=
  ⟨by decide, by decide, by decide, _, _, rfl, rfl, by decide, by decide, by decide,
    by decide⟩

/-! ## C4: one round trip of the SPI port -/

theorem memory_ensure_free_ok {ctx : Context} {n : Nat}
    (h : (memory_ensure_free ctx n).1 = .MEMORY_GC_OK) :
    memory_ensure_free ctx n =
      (.MEMORY_GC_OK,
        { ctx with heap_size :=
            if ctx.heap_ptr + n ≤ ctx.heap_size then ctx.heap_size else ctx.heap_ptr + n }) := by
  unfold memory_ensure_free at h ⊢
  by_cases h1 : ctx.heap_ptr + n ≤ ctx.heap_size
  · simp [h1]
  · by_cases h2 : ctx.heap_ptr + n ≤ ctx.heap_limit
    · simp [h1, h2]
    · simp [h1, h2] at h

theorem memory_ensure_free_fst (ctx : Context) (n : Nat) :
    (memory_ensure_free ctx n).1 =
      if ctx.heap_ptr + n ≤ ctx.heap_size ∨ ctx.heap_ptr + n ≤ ctx.heap_limit then
        .MEMORY_GC_OK
      else .MEMORY_GC_ERROR_FAILED_ALLOCATION := by
  unfold memory_ensure_free
  by_cases h1 : ctx.heap_ptr + n ≤ ctx.heap_size
  · simp [h1]
  · by_cases h2 : ctx.heap_ptr + n ≤ ctx.heap_limit <;> simp [h1, h2]

theorem spidriver_consume_mailbox_read_at (atoms : PlatformAtoms) (dev : SPIDevice)
    (glb : GlobalContext) (port caller : Int) (c : Context) (ref len : Term) (addr : Int)
    (rest : List Term)
    (hport : glb.deref port = some c)
    (hmsg : c.mailbox =
      Term.tuple [Term.pid caller, ref, Term.tuple [atoms.READ_AT_ATOM, Term.int addr, len]]
        :: rest)
    (hlive : globalcontext_get_process glb caller ≠ none)
    (hfree : (memory_ensure_free c (1 + 2)).1 = MemoryGCResult.MEMORY_GC_OK) :
    ∃ c2 : Context, c2.process_id = port ∧ c2.mailbox = rest ∧
      spidriver_consume_mailbox atoms dev glb port =
        .ok (mailbox_send ((glb.store { c with mailbox := rest }).store c2) (some caller)
          (Term.tuple [atoms.OK_ATOM,
            Term.int (spidriver_transfer_at dev (addr % 256).toNat 0)])) := by
  have hcid := deref_process_id hport
  have hfree1 : (memory_ensure_free { c with mailbox := rest } (1 + 2)).1 =
      MemoryGCResult.MEMORY_GC_OK := by
    rw [memory_ensure_free_fst] at hfree ⊢
    exact hfree
  have hc1 := memory_ensure_free_ok hfree1
  dsimp only at hc1
  have hlive0 : glb.deref caller ≠ none := by
    rwa [Ne, ← get_process_eq_none_iff]
  have hlive1 : (glb.store { c with mailbox := rest }).deref caller ≠ none :=
    (deref_store_ne_none _ _ _).2 hlive0
  have htarget : globalcontext_get_process (glb.store { c with mailbox := rest }) caller =
      some caller := by
    cases h : (glb.store { c with mailbox := rest }).deref caller with
    | none => exact absurd h hlive1
    | some cc => exact get_process_eq_some h
  refine ⟨{ c with
              mailbox := rest
              heap_size := if c.heap_ptr + (1 + 2) ≤ c.heap_size then c.heap_size
                else c.heap_ptr + (1 + 2)
              heap_ptr := c.heap_ptr + (2 + 1) }, hcid, rfl, ?_⟩
  simp only [spidriver_consume_mailbox, hport, mailbox_dequeue, hmsg, term_get_tuple_element,
    List.get?, Result.ok_bind, term_to_local_process_id, htarget, if_true, spidriver_read_at,
    term_to_int32, hc1, term_alloc_tuple, term_put_tuple_element, List.length_replicate,
    List.replicate, List.length_cons, List.length_nil, List.set, term_from_int11]
  simp

/-- C4: when the oldest message of the SPI port `port` is
`{Caller, Ref, {read_at, Addr, Len}}` with `Addr` a small integer, `Caller` a live process
and 3 heap words obtainable in the port, one run of `spidriver_consume_mailbox` returns, and
afterwards the mailbox of the port has lost exactly that message while the mailbox of
`Caller` has gained exactly one message at its end, the tuple `{ok, V}` with `V` the byte
(below 256) that `spidriver_transfer_at` returned for the address truncated to 8 bits and
data 0; no other mailbox changed. -/
theorem spi_read_at_round_trip (atoms : PlatformAtoms) (dev : SPIDevice) (glb : GlobalContext)
    (port caller : Int) (c : Context) (ref len : Term) (addr : Int) (rest : List Term)
    (hport : glb.deref port = some c)
    (hmsg : c.mailbox =
      Term.tuple [Term.pid caller, ref, Term.tuple [atoms.READ_AT_ATOM, Term.int addr, len]]
        :: rest)
    (hlive : globalcontext_get_process glb caller ≠ none)
    (hfree : (memory_ensure_free c (1 + 2)).1 = MemoryGCResult.MEMORY_GC_OK) :
    ∃ glb', spidriver_consume_mailbox atoms dev glb port = .ok glb' ∧
      spidriver_transfer_at dev (addr % 256).toNat 0 < 256 ∧
      ∀ p, glb'.mailbox_of p =
        (if p = port then rest else glb.mailbox_of p) ++
          (if p = caller then
            [Term.tuple [atoms.OK_ATOM,
              Term.int (spidriver_transfer_at dev (addr % 256).toNat 0)]]
           else []) := by
  obtain ⟨c2, hc2id, hc2mb, hrun⟩ :=
    spidriver_consume_mailbox_read_at atoms dev glb port caller c ref len addr rest hport hmsg
      hlive hfree
  have hcid := deref_process_id hport
  have hlive0 : glb.deref caller ≠ none := by
    rwa [Ne, ← get_process_eq_none_iff]
  refine ⟨_, hrun, Nat.mod_lt _ (by decide), ?_⟩
  intro p
  rw [mailbox_of_mailbox_send _ _ _ _
    ((deref_store_ne_none _ _ _).2 ((deref_store_ne_none _ _ _).2 hlive0))]
  congr 1
  rw [mailbox_of_store, mailbox_of_store]
  have hd := deref_store_ne_none glb { c with mailbox := rest } p
  by_cases hp : p = port
  · subst hp
    have : (glb.store { c with mailbox := rest }).deref p ≠ none := hd.2 (by simp [hport])
    simp [hc2id, hc2mb, this]
  · have h1 : ¬ p = c2.process_id := by rw [hc2id]; exact hp
    have h2 : ¬ p = c.process_id := by rw [hcid]; exact hp
    simp [hp, h1, h2]

/-- C4 at a concrete state: port 2 of `example_spi_glb` serves `{<1>, Ref, {read_at, 5, 1}}`
and process 1 receives `{ok, 237}`. -/
theorem spi_read_at_round_trip_witness :
    ∃ glb', spidriver_consume_mailbox example_atoms example_spi_device example_spi_glb 2 =
        .ok glb' ∧
      spidriver_transfer_at example_spi_device ((5 : Int) % 256).toNat 0 < 256 ∧
      ∀ p, glb'.mailbox_of p =
        (if p = 2 then [Term.atom 1] else example_spi_glb.mailbox_of p) ++
          (if p = 1 then
            [Term.tuple [example_atoms.OK_ATOM,
              Term.int (spidriver_transfer_at example_spi_device ((5 : Int) % 256).toNat 0)]]
           else []) :=
  spi_read_at_round_trip example_atoms example_spi_device example_spi_glb 2 1 example_spi_port
    (Term.ref 77) (Term.int 1) 5 [Term.atom 1] (by decide) (by decide) (by decide) (by decide)

/-! ## C5: open_port leaves the new port waiting -/

/-- The port that `context_new` followed by the installation of `handler` creates. -/
theorem new_port_spec (glb : GlobalContext) (handler : NativeHandler) (hwf : glb.pids_bounded) :
    globalcontext_get_process glb (glb.last_process_id + 1) = none ∧
    ∃ c, (scheduler_make_waiting
            ((context_new glb).2.store
              { (context_new glb).1 with native_handler := some handler })
            (glb.last_process_id + 1)).deref (glb.last_process_id + 1) = some c ∧
      c.native_handler ≠ none ∧
      (glb.last_process_id + 1) ∈ (scheduler_make_waiting
            ((context_new glb).2.store
              { (context_new glb).1 with native_handler := some handler })
            (glb.last_process_id + 1)).waiting_processes ∧
      (glb.last_process_id + 1) ∉ (scheduler_make_waiting
            ((context_new glb).2.store
              { (context_new glb).1 with native_handler := some handler })
            (glb.last_process_id + 1)).ready_processes := by
  have hfresh := deref_fresh hwf
  have hnew : (context_new glb).2.deref (glb.last_process_id + 1) = some (context_new glb).1 := by
    rw [deref_context_new, hfresh]; simp
  refine ⟨(get_process_eq_none_iff _ _).2 hfresh,
    { (context_new glb).1 with native_handler := some handler }, ?_, ?_, ?_, ?_⟩
  · rw [deref_scheduler_make_waiting, deref_store]
    have hpid : (context_new glb).1.process_id = glb.last_process_id + 1 := rfl
    simp only [hpid, if_true, hnew]
    rfl
  · simp
  · simp [scheduler_make_waiting]
  · simp [scheduler_make_waiting]

/-- C5: whenever `nif_erlang_open_port_2` succeeds, that is returns the pid `p` (driver
`echo`, `console` or a driver of the platform), `p` named no process before the call, and
after the call `p` is a process with a native handler installed that is in the waiting
queue of the scheduler and not in the ready queue. -/
theorem open_port_returns_waiting_port (plat : Platform) (glb : GlobalContext)
    (argv : List Term) (p : Int) (glb' : GlobalContext)
    (hwf : glb.pids_bounded)
    (hok : nif_erlang_open_port_2 plat glb argv = .ok (Term.pid p, glb')) :
    globalcontext_get_process glb p = none ∧
      ∃ c, glb'.deref p = some c ∧ c.native_handler ≠ none ∧
        p ∈ glb'.waiting_processes ∧ p ∉ glb'.ready_processes := by
  unfold nif_erlang_open_port_2 at hok
  split at hok
  · rename_i port_name opts
    split at hok
    · cases hok
    · cases ht : term_get_tuple_element port_name 1 with
      | abort m => rw [ht] at hok; cases hok
      | fault w => rw [ht] at hok; cases hok
      | ok t =>
        rw [ht] at hok
        simp only [Result.ok_bind] at hok
        cases hs : interop_term_to_string t with
        | none =>
          rw [hs] at hok
          simp only at hok
          split at hok
          · cases hok
          · simp [term_from_atom_index] at hok
        | some driver_name =>
          rw [hs] at hok
          simp only at hok
          by_cases he : driver_name = "echo"
          · simp only [he, if_true, term_from_local_process_id] at hok
            cases hok
            exact new_port_spec glb _ hwf
          · by_cases hc : driver_name = "console"
            · simp only [hc, if_true, term_from_local_process_id] at hok
              simp at hok
              obtain ⟨h1, h2⟩ := hok
              subst h1; subst h2
              exact new_port_spec glb _ hwf
            · simp only [he, hc, if_false, platform_open_port] at hok
              cases hd : plat.driver_handler driver_name with
              | none => rw [hd] at hok; simp at hok
              | some handler =>
                rw [hd] at hok
                simp [term_from_local_process_id] at hok
                obtain ⟨h1, h2⟩ := hok
                subst h1; subst h2
                exact new_port_spec glb _ hwf
  · cases hok

/-- C5 at a concrete state: `open_port({false, "echo"}, [])` in `example_glb` returns the
pid of the new echo port 2. -/
theorem open_port_returns_waiting_port_witness :
    nif_erlang_open_port_2 example_platform example_glb
        [Term.tuple [Term.atom 0, example_echo_name], Term.nil] =
      .ok (Term.pid 2, example_echo_glb) ∧
    globalcontext_get_process example_glb 2 = none ∧
      ∃ c, example_echo_glb.deref 2 = some c ∧ c.native_handler ≠ none ∧
        2 ∈ example_echo_glb.waiting_processes ∧ 2 ∉ example_echo_glb.ready_processes :=
  ⟨by decide,
    open_port_returns_waiting_port example_platform example_glb
      [Term.tuple [Term.atom 0, example_echo_name], Term.nil] 2 example_echo_glb
      (by decide) (by decide)⟩

/-! ## C6: register, then whereis -/

theorem insert_atom_index (glb : GlobalContext) (s : AtomString) :
    atoms_ids_table_get_value (globalcontext_insert_atom glb s).2
      (globalcontext_insert_atom glb s).1 = some s := by
  unfold globalcontext_insert_atom atoms_ids_table_get_value
  by_cases h : s ∈ glb.atoms
  · simp only [if_pos h]
    simp [List.indexOf_lt_length.2 h]
  · simp only [if_neg h]
    simp

/-- C7: for every atom that no registration binds, `nif_erlang_whereis_1` returns normally
and its result is the atom whose name in the atom table is `undefined`; the registered names
and the process table are as before. -/
theorem whereis_unregistered (glb : GlobalContext) (name : Int)
    (hunreg : ∀ r ∈ glb.registered_processes, r.1 ≠ name) :
    ∃ index glb', nif_erlang_whereis_1 glb [Term.atom name] = .ok (Term.atom index, glb') ∧
      atoms_ids_table_get_value glb' index = some undefined_atom ∧
      glb'.registered_processes = glb.registered_processes ∧
      glb'.processes = glb.processes := by
  have h0 : globalcontext_get_registered_process glb name = 0 := by
    unfold globalcontext_get_registered_process
    have : glb.registered_processes.find? (fun r => decide (r.1 = name)) = none := by
      rw [List.find?_eq_none]
      intro r hr
      simpa using hunreg r hr
    rw [this]
  refine ⟨(globalcontext_insert_atom glb undefined_atom).1,
    (globalcontext_insert_atom glb undefined_atom).2, ?_, insert_atom_index _ _, ?_, ?_⟩
  · simp [nif_erlang_whereis_1, term_is_atom, term_to_atom_index, h0, term_from_atom_index]
  · unfold globalcontext_insert_atom; split <;> rfl
  · unfold globalcontext_insert_atom; split <;> rfl

/-- C7 at a concrete state: nothing is registered in `example_glb`. -/
theorem whereis_unregistered_witness :
    ∃ index glb', nif_erlang_whereis_1 example_glb [Term.atom 9] =
        .ok (Term.atom index, glb') ∧
      atoms_ids_table_get_value glb' index = some undefined_atom ∧
      glb'.registered_processes = example_glb.registered_processes ∧
      glb'.processes = example_glb.processes :=
  whereis_unregistered example_glb 9 (by decide)

/-! ## C8: the argument check of open_port -/

/-- C8 (the code departs from the claim): with a port name that is not a tuple (the atom
`false`) and options that are a non-empty list, `nif_erlang_open_port_2` does not take its
bad-arguments path: it goes on to read element 1 of the port name, a read through the tuple
accessor of a term that is not a tuple.  With the same port name and the empty list as
options it does take the bad-arguments path. -/
theorem open_port_bad_port_name_passes_guard :
    nif_erlang_open_port_2 example_platform example_glb
        [Term.atom 0, Term.cons (Term.atom 1) Term.nil] =
      Result.fault "term_get_tuple_element: not a tuple" ∧
    nif_erlang_open_port_2 example_platform example_glb [Term.atom 0, Term.nil] =
      Result.abort "bad args" := by
  decide

/-! ## C9: a failed heap reservation -/

/-- C9 (the code departs from the claim): on a process whose heap is full and cannot grow,
`memory_ensure_free` fails for 4, 3 and 11 words, yet `nif_erlang_concat_2`,
`nif_erlang_setelement_3` and `nif_erlang_universaltime_0` return normally with a term and
have moved the heap pointer by 4, 3 and 11 words past the 8 words the heap holds.  The
sibling `spidriver_read_at` tests the result: it allocates nothing and returns the atom
`error`. -/
theorem failed_ensure_free_is_ignored :
    (memory_ensure_free example_full_process (2 * 2)).1 =
        MemoryGCResult.MEMORY_GC_ERROR_FAILED_ALLOCATION ∧
      nif_erlang_concat_2 example_full_process
          [term_of_list [Term.int 1, Term.int 2], term_of_list [Term.int 3]] =
        .ok (term_of_list [Term.int 1, Term.int 2, Term.int 3],
          { example_full_process with heap_ptr := 12 }) ∧
      (memory_ensure_free example_full_process (2 + 1)).1 =
        MemoryGCResult.MEMORY_GC_ERROR_FAILED_ALLOCATION ∧
      nif_erlang_setelement_3 example_full_process
          [Term.int 1, Term.tuple [Term.atom 0, Term.atom 1], Term.atom 2] =
        .ok (Term.tuple [Term.atom 2, Term.atom 1],
          { example_full_process with heap_ptr := 11 }) ∧
      (memory_ensure_free example_full_process (3 + 4 + 4)).1 =
        MemoryGCResult.MEMORY_GC_ERROR_FAILED_ALLOCATION ∧
      nif_erlang_universaltime_0 example_time example_full_process [] =
        .ok (Term.tuple
            [Term.tuple [Term.int 2019, Term.int 1, Term.int 5],
             Term.tuple [Term.int 1, Term.int 2, Term.int 3]],
          { example_full_process with heap_ptr := 19 }) ∧
      spidriver_read_at example_atoms example_spi_device example_full_process
          (Term.tuple [example_atoms.READ_AT_ATOM, Term.int 5, Term.int 1]) =
        .ok (example_atoms.ERROR_ATOM, example_full_process) := by
  decide

/-! ## C10: words allocated against words reserved -/

theorem memory_ensure_free_heap_ptr (ctx : Context) (n : Nat) :
    (memory_ensure_free ctx n).2.heap_ptr = ctx.heap_ptr := by
  unfold memory_ensure_free
  split
  · rfl
  · split <;> rfl

theorem concat_loop_proper (as : List Term) : ∀ (cells : List Term) (ctx : Context),
    concat_loop (term_of_list as) cells ctx =
      .ok (cells ++ as, { ctx with heap_ptr := ctx.heap_ptr + 2 * as.length }) := by
  induction as with
  | nil => intro cells ctx; simp [term_of_list, concat_loop]
  | cons a as ih =>
    intro cells ctx
    simp only [term_of_list, concat_loop, ih, term_list_alloc, List.length_cons]
    simp [Nat.mul_add, Nat.add_assoc, Nat.add_comm]

theorem take_succ_set (e : Term) : ∀ (ys : List Term) (i : Nat), i < ys.length →
    (ys.set i e).take (i + 1) = ys.take i ++ [e] := by
  intro ys
  induction ys with
  | nil => intro i hi; simp at hi
  | cons y ys ih =>
    intro i hi
    cases i with
    | zero => simp
    | succ j =>
      simp only [List.set_cons_succ, List.take_succ_cons, List.cons_append, List.cons.injEq,
        true_and]
      exact ih j (by simpa using hi)

theorem setelement_copy_loop_spec (elems : List Term) : ∀ (remaining i : Nat) (ys : List Term),
    ys.length = elems.length → i + remaining = elems.length →
    setelement_copy_loop (Term.tuple elems) remaining i (Term.tuple ys) =
      .ok (Term.tuple (ys.take i ++ elems.drop i)) := by
  intro remaining
  induction remaining with
  | zero =>
    intro i ys hlen hi
    have h1 : ys.take i = ys := List.take_of_length_le (by omega)
    have h2 : elems.drop i = [] := List.drop_of_length_le (by omega)
    simp [setelement_copy_loop, h1, h2]
  | succ n ih =>
    intro i ys hlen hi
    have hlt : i < elems.length := by omega
    have hget : elems.get? i = some (elems.get ⟨i, hlt⟩) := List.get?_eq_get hlt
    simp only [setelement_copy_loop, term_get_tuple_element, hget, Result.ok_bind,
      term_put_tuple_element, hlen, hlt, if_true]
    rw [ih (i + 1) _ (by simp [hlen]) (by omega)]
    rw [take_succ_set _ _ _ (by omega)]
    have hdrop : elems.drop i = elems.get ⟨i, hlt⟩ :: elems.drop (i + 1) := by
      rw [List.drop_eq_getElem_cons hlt]; rfl
    rw [hdrop]
    simp

theorem concat_proper (ctx : Context) (a : Term) (as : List Term) (b : Term) :
    nif_erlang_concat_2 ctx [term_of_list (a :: as), b] =
      .ok (concat_list_begin (a :: as) b,
        { (memory_ensure_free ctx (term_list_length (term_of_list (a :: as)) * 2)).2 with
            heap_ptr :=
              (memory_ensure_free ctx (term_list_length (term_of_list (a :: as)) * 2)).2.heap_ptr
                + 2 * (a :: as).length }) := by
  have h := concat_loop_proper (a :: as) []
    (memory_ensure_free ctx (term_list_length (term_of_list (a :: as)) * 2)).2
  simp only [nif_erlang_concat_2, term_is_nonempty_list, term_of_list, Bool.not_true,
    Bool.false_eq_true, if_false] at h ⊢
  rw [h]
  rfl

theorem setelement_spec (ctx : Context) (k : Nat) (elems : List Term) (v : Term)
    (hk : k < elems.length) :
    nif_erlang_setelement_3 ctx [Term.int (k + 1), Term.tuple elems, v] =
      .ok (Term.tuple (elems.set k v),
        { (memory_ensure_free ctx (elems.length + 1)).2 with
            heap_ptr := (memory_ensure_free ctx (elems.length + 1)).2.heap_ptr
              + (elems.length + 1) }) := by
  have hloop := setelement_copy_loop_spec elems elems.length 0
    (List.replicate elems.length (Term.int 0)) (by simp) (by simp)
  have hguard : ¬ ((k : Int) + 1 - 1 ≥ (elems.length : Int) ∨ (k : Int) + 1 - 1 < 0) := by
    omega
  simp only [nif_erlang_setelement_3, term_to_int32, term_get_tuple_arity, Result.ok_bind,
    Bool.or_eq_true, decide_eq_true_eq, hguard, if_false, term_alloc_tuple, hloop]
  simp [term_put_tuple_element, hk]

theorem universaltime_spec (tm : BrokenDownTime) (ctx : Context) :
    nif_erlang_universaltime_0 tm ctx [] =
      .ok (Term.tuple
          [Term.tuple [Term.int (1900 + tm.tm_year), Term.int (tm.tm_mon + 1),
            Term.int tm.tm_mday],
           Term.tuple [Term.int tm.tm_hour, Term.int tm.tm_min, Term.int tm.tm_sec]],
        { (memory_ensure_free ctx (3 + 4 + 4)).2 with
            heap_ptr := (memory_ensure_free ctx (3 + 4 + 4)).2.heap_ptr + (3 + 4 + 4) }) := by
  simp [nif_erlang_universaltime_0, term_alloc_tuple, term_put_tuple_element,
    term_from_int32, List.replicate, Nat.add_assoc]

/-- After a successful reservation of `n` words, `n` words fit between the heap pointer and
the end of the heap. -/
theorem memory_ensure_free_fits (ctx : Context) (n : Nat)
    (h : (memory_ensure_free ctx n).1 = MemoryGCResult.MEMORY_GC_OK) :
    (memory_ensure_free ctx n).2.heap_ptr + n ≤ (memory_ensure_free ctx n).2.heap_size := by
  unfold memory_ensure_free at h ⊢
  by_cases h1 : ctx.heap_ptr + n ≤ ctx.heap_size
  · simp only [if_pos h1]
    exact h1
  · by_cases h2 : ctx.heap_ptr + n ≤ ctx.heap_limit
    · simp only [if_neg h1, if_pos h2]
      exact Nat.le_refl _
    · simp [h1, h2] at h

/-- C10: each of the three NIFs returns, and the process it leaves is exactly the process
that its call of `memory_ensure_free` left, with the heap pointer moved by the number of
words that call asked for: `len * 2` words are requested and `2 * len` allocated by the
concat of a proper list of length `len > 0` (2 words per cons cell), `n + 1` requested and
allocated by setelement on a tuple of arity `n` with an index from 1 to `n`, and
`3 + 4 + 4 = 11` by universaltime.  The heap size is the one the reservation left, so
whenever the reservation succeeded the words allocated after it do not exceed the words it
made free: the heap pointer stays within the heap.  The concat of the empty list requests
and allocates nothing. -/
theorem heap_words_allocated_match_request (ctx : Context) (a : Term) (as : List Term)
    (b : Term) (i : Int) (elems : List Term) (v : Term) (tm : BrokenDownTime)
    (hi1 : 1 ≤ i) (hi2 : i ≤ elems.length) :
    (∃ t ctx', nif_erlang_concat_2 ctx [term_of_list (a :: as), b] = .ok (t, ctx') ∧
        ctx' = { (memory_ensure_free ctx ((a :: as).length * 2)).2 with
                  heap_ptr := (memory_ensure_free ctx ((a :: as).length * 2)).2.heap_ptr
                    + 2 * (a :: as).length } ∧
        ctx'.heap_ptr =
          (memory_ensure_free ctx ((a :: as).length * 2)).2.heap_ptr + 2 * (a :: as).length ∧
        ctx'.heap_size = (memory_ensure_free ctx ((a :: as).length * 2)).2.heap_size ∧
        ((memory_ensure_free ctx ((a :: as).length * 2)).1 = MemoryGCResult.MEMORY_GC_OK →
          ctx'.heap_ptr ≤ ctx'.heap_size)) ∧
    nif_erlang_concat_2 ctx [term_of_list [], b] = .ok (b, ctx) ∧
    (∃ t ctx', nif_erlang_setelement_3 ctx [Term.int i, Term.tuple elems, v] = .ok (t, ctx') ∧
        ctx' = { (memory_ensure_free ctx (elems.length + 1)).2 with
                  heap_ptr := (memory_ensure_free ctx (elems.length + 1)).2.heap_ptr
                    + (elems.length + 1) } ∧
        ctx'.heap_ptr =
          (memory_ensure_free ctx (elems.length + 1)).2.heap_ptr + (elems.length + 1) ∧
        ctx'.heap_size = (memory_ensure_free ctx (elems.length + 1)).2.heap_size ∧
        ((memory_ensure_free ctx (elems.length + 1)).1 = MemoryGCResult.MEMORY_GC_OK →
          ctx'.heap_ptr ≤ ctx'.heap_size)) ∧
    (∃ t ctx', nif_erlang_universaltime_0 tm ctx [] = .ok (t, ctx') ∧
        ctx' = { (memory_ensure_free ctx (3 + 4 + 4)).2 with
                  heap_ptr := (memory_ensure_free ctx (3 + 4 + 4)).2.heap_ptr + 11 } ∧
        ctx'.heap_ptr = (memory_ensure_free ctx (3 + 4 + 4)).2.heap_ptr + 11 ∧
        ctx'.heap_size = (memory_ensure_free ctx (3 + 4 + 4)).2.heap_size ∧
        ((memory_ensure_free ctx (3 + 4 + 4)).1 = MemoryGCResult.MEMORY_GC_OK →
          ctx'.heap_ptr ≤ ctx'.heap_size)) := by
  refine ⟨?_, ?_, ?_, ?_⟩
  · have hres := concat_proper ctx a as b
    rw [term_list_length_term_of_list] at hres
    refine ⟨_, _, hres, rfl, rfl, rfl, fun hok => ?_⟩
    have := memory_ensure_free_fits ctx ((a :: as).length * 2) hok
    show (memory_ensure_free ctx ((a :: as).length * 2)).2.heap_ptr + 2 * (a :: as).length ≤
      (memory_ensure_free ctx ((a :: as).length * 2)).2.heap_size
    omega
  · simp [nif_erlang_concat_2, term_of_list, term_is_nonempty_list, term_is_nil]
  · obtain ⟨k, rfl⟩ : ∃ k : Nat, i = (k : Int) + 1 := ⟨(i - 1).toNat, by omega⟩
    exact ⟨_, _, setelement_spec ctx k elems v (by omega), rfl, rfl, rfl,
      fun hok => memory_ensure_free_fits ctx (elems.length + 1) hok⟩
  · exact ⟨_, _, universaltime_spec tm ctx, rfl, rfl, rfl,
      fun hok => memory_ensure_free_fits ctx (3 + 4 + 4) hok⟩

/-- C10 at concrete inputs: `[1, 2] ++ [3]`, `setelement(2, {false, true, ok}, error)` and
universaltime on `example_process` (8 free words, growth to 64): the three reservations
succeed, 4, 4 and 11 words are allocated and the heap pointer stays within the heap. -/
theorem heap_words_allocated_match_request_witness :
    ((memory_ensure_free example_process ([Term.int 1, Term.int 2].length * 2)).1 =
        MemoryGCResult.MEMORY_GC_OK ∧
      (memory_ensure_free example_process ([Term.atom 0, Term.atom 1, Term.atom 2].length
        + 1)).1 = MemoryGCResult.MEMORY_GC_OK ∧
      (memory_ensure_free example_process (3 + 4 + 4)).1 = MemoryGCResult.MEMORY_GC_OK) ∧
    ∃ c1 c2 c3 t1 t2 t3,
      nif_erlang_concat_2 example_process
          [term_of_list [Term.int 1, Term.int 2], term_of_list [Term.int 3]] = .ok (t1, c1) ∧
      c1.heap_ptr = 4 ∧ c1.heap_ptr ≤ c1.heap_size ∧
      nif_erlang_setelement_3 example_process
          [Term.int 2, Term.tuple [Term.atom 0, Term.atom 1, Term.atom 2], Term.atom 3] =
        .ok (t2, c2) ∧
      c2.heap_ptr = 4 ∧ c2.heap_ptr ≤ c2.heap_size ∧
      nif_erlang_universaltime_0 example_time example_process [] = .ok (t3, c3) ∧
      c3.heap_ptr = 11 ∧ c3.heap_ptr ≤ c3.heap_size := by
  obtain ⟨⟨t1, c1, h1, e1, -, -, f1⟩, -, ⟨t2, c2, h2, e2, -, -, f2⟩, ⟨t3, c3, h3, e3, -, -, f3⟩⟩ :=
    heap_words_allocated_match_request example_process (Term.int 1) [Term.int 2]
      (term_of_list [Term.int 3]) 2 [Term.atom 0, Term.atom 1, Term.atom 2] (Term.atom 3)
      example_time (by decide) (by decide)
  refine ⟨⟨by decide, by decide, by decide⟩, c1, c2, c3, t1, t2, t3, h1, ?_, f1 (by decide),
    h2, ?_, f2 (by decide), h3, ?_, f3 (by decide)⟩
  · rw [e1]; decide
  · rw [e2]; decide
  · rw [e3]; decide

/-! ## C11: the value of concat -/

theorem foldr_cons_term_of_list (as bs : List Term) :
    as.foldr Term.cons (term_of_list bs) = term_of_list (as ++ bs) := by
  induction as with
  | nil => rfl
  | cons a as ih => simp [term_of_list, ih]

theorem concat_value (ctx : Context) (as : List Term) (b : Term) :
    ∃ ctx', nif_erlang_concat_2 ctx [term_of_list as, b] =
      .ok (as.foldr Term.cons b, ctx') := by
  cases as with
  | nil =>
    exact ⟨ctx, by simp [nif_erlang_concat_2, term_of_list, term_is_nonempty_list,
      term_is_nil]⟩
  | cons a as => exact ⟨_, concat_proper ctx a as b⟩

/-- C11: for every proper list `A = [a1, ..., an]` and every term `B`,
`nif_erlang_concat_2` returns, and its result is the chain of cons cells that holds
`a1, ..., an` in this order and ends in `B` as the tail; for a proper list `B` this is the
proper list of the elements of `A` followed by the elements of `B`; for the empty list `A`
the result is `B` itself and the process is untouched. -/
theorem concat_returns_elements_then_tail (ctx : Context) (as bs : List Term) (b : Term) :
    (∃ ctx', nif_erlang_concat_2 ctx [term_of_list as, b] =
        .ok (as.foldr Term.cons b, ctx')) ∧
    (∃ ctx', nif_erlang_concat_2 ctx [term_of_list as, term_of_list bs] =
        .ok (term_of_list (as ++ bs), ctx')) ∧
    nif_erlang_concat_2 ctx [term_of_list [], b] = .ok (b, ctx) := by
  refine ⟨concat_value ctx as b, ?_, ?_⟩
  · rw [← foldr_cons_term_of_list]
    exact concat_value ctx as (term_of_list bs)
  · simp [nif_erlang_concat_2, term_of_list, term_is_nonempty_list, term_is_nil]

/-! ## C12: the value of setelement -/

theorem get_set_eq_ite (elems : List Term) (k j : Nat) (v : Term) :
    (elems.set k v).get? j = if j = k ∧ j < elems.length then some v else elems.get? j := by
  simp only [List.get?_eq_getElem?, List.getElem?_set]
  by_cases hjk : k = j
  · subst hjk
    by_cases hlt : k < elems.length
    · simp [hlt]
    · simp [hlt]
      omega
  · have : ¬ j = k := fun h => hjk h.symm
    simp [hjk, this]

/-- C12: for every tuple `T` of arity `n`, every integer `I` and every term `V`,
`nif_erlang_setelement_3` with `1 ≤ I ≤ n` returns a tuple built in `n + 1` words newly
taken from the heap, of arity `n`, whose slot `I - 1` (position `I`, counted from 1) holds
`V` and whose other slots hold the elements of `T`; the call changes nothing of the process
but the heap pointer, and `T`, a value, is as before.  For every `I` outside `1..n` the call
does not return: it ends in `abort()`. -/
theorem setelement_replaces_one_element (ctx : Context) (i : Int) (elems : List Term)
    (v : Term) :
    nif_erlang_setelement_3 ctx [Term.int i, Term.tuple elems, v] =
      (if 1 ≤ i ∧ i ≤ elems.length then
        .ok (Term.tuple (elems.set (i - 1).toNat v),
          { (memory_ensure_free ctx (elems.length + 1)).2 with
              heap_ptr := (memory_ensure_free ctx (elems.length + 1)).2.heap_ptr
                + (elems.length + 1) })
      else .abort "setelement: bad argument") ∧
    (elems.set (i - 1).toNat v).length = elems.length ∧
    ∀ j, (elems.set (i - 1).toNat v).get? j =
      if j = (i - 1).toNat ∧ j < elems.length then some v else elems.get? j := by
  refine ⟨?_, List.length_set _ _ _, fun j => get_set_eq_ite elems _ j v⟩
  by_cases h : 1 ≤ i ∧ i ≤ elems.length
  · rw [if_pos h]
    obtain ⟨k, rfl⟩ : ∃ k : Nat, i = (k : Int) + 1 := ⟨(i - 1).toNat, by omega⟩
    have hk : k < elems.length := by omega
    rw [setelement_spec ctx k elems v hk]
    simp
  · rw [if_neg h]
    have hguard : (i - 1 ≥ (elems.length : Int) ∨ i - 1 < 0) := by omega
    simp only [nif_erlang_setelement_3, term_to_int32, term_get_tuple_arity, Result.ok_bind,
      Bool.or_eq_true, decide_eq_true_eq, hguard, if_true]

/-! ## C13: spawn of a module that is not loaded -/

theorem insert_atom_index_nonneg (glb : GlobalContext) (s : AtomString) :
    ¬ (globalcontext_insert_atom glb s).1 < 0 := by
  unfold globalcontext_insert_atom
  split <;> simp

theorem insert_atom_processes (glb : GlobalContext) (s : AtomString) :
    (globalcontext_insert_atom glb s).2.processes = glb.processes ∧
      (globalcontext_insert_atom glb s).2.ready_processes = glb.ready_processes ∧
      (globalcontext_insert_atom glb s).2.waiting_processes = glb.waiting_processes := by
  unfold globalcontext_insert_atom
  split <;> exact ⟨rfl, rfl, rfl⟩

/-- On the path of `nif_erlang_spawn_3` for a module that is not loaded the atom `undefined`
is returned, and the process that `context_new` created at the start of the call is still
in the process table and in the ready queue. -/
theorem spawn_unloaded_module_result (glb : GlobalContext) (mi fi : Int)
    (mname : AtomString) (args : Term) (hlist : term_is_list args = true)
    (hm : atoms_ids_table_get_value glb mi = some mname)
    (hunloaded : globalcontext_get_module glb mname = none) :
    ∃ index glb',
      nif_erlang_spawn_3 glb [Term.atom mi, Term.atom fi, args] =
        .ok (Term.atom index, glb') ∧
      atoms_ids_table_get_value glb' index = some undefined_atom ∧
      glb'.processes = glb.processes ++ [(context_new glb).1] ∧
      glb'.ready_processes = glb.ready_processes ++ [glb.last_process_id + 1] ∧
      glb'.waiting_processes = glb.waiting_processes := by
  have hm1 : atoms_ids_table_get_value (context_new glb).2 mi = some mname := hm
  have hl1 : globalcontext_get_module (context_new glb).2 mname = none := hunloaded
  have hp := insert_atom_processes (context_new glb).2 undefined_atom
  refine ⟨(globalcontext_insert_atom (context_new glb).2 undefined_atom).1,
    (globalcontext_insert_atom (context_new glb).2 undefined_atom).2, ?_,
    insert_atom_index _ _, hp.1, hp.2.1, hp.2.2⟩
  simp only [nif_erlang_spawn_3, term_is_atom, hlist, term_to_atom_index, Bool.not_true,
    Bool.or_false, Bool.false_eq_true, if_false, Result.ok_bind, hm1, hl1,
    insert_atom_index_nonneg, term_from_atom_index]

/-- C13 (the code departs from the claim): in `example_glb` no module is named `false`
(atom 0) and no process has id 2.  `spawn(false, loop, [<1>])` returns the atom `undefined`
(index 4), yet afterwards process 2, created by `context_new` before the module was looked
up and never given an entry point, is in the process table and in the ready queue, and
`last_process_id` has advanced. -/
theorem spawn_unloaded_module_leaves_process :
    globalcontext_get_module example_glb "false" = none ∧
      example_glb.deref 2 = none ∧
      ∃ glb' c,
        nif_erlang_spawn_3 example_glb [Term.atom 0, Term.atom 8, term_of_list [Term.pid 1]] =
          .ok (Term.atom 4, glb') ∧
        atoms_ids_table_get_value glb' 4 = some undefined_atom ∧
        glb'.deref 2 = some c ∧ c.saved_module = none ∧
        glb'.processes = example_glb.processes ++ [c] ∧
        glb'.ready_processes = example_glb.ready_processes ++ [2] ∧
        glb'.last_process_id = example_glb.last_process_id + 1 :=
  ⟨by decide, by decide, _, _, rfl, by decide, rfl, by decide, by decide, by decide,
    by decide⟩

end AtomVM
